import Mathlib

/-!
# Snowflake id generator (`snowflake.go`)

A shallow embedding of the generator of `snowflake.go`: the layout constants,
`NewSnowFlake`, `NextID`, `tilNextMillis` and `genMillTimestamp`.

Modelling conventions.

* `uint64` values are natural numbers below `2 ^ 64`; every operation of the
  source that can leave that range (`+`, `-`, `<<`) is followed by an explicit
  reduction modulo `2 ^ 64`.
* The wall clock is an infinite stream of `time.Now().UnixNano()` readings.
  Every evaluation of `genMillTimestamp` consumes one reading, so the
  functions thread the index of the next unread reading.
* `panic(1)` is an explicit outcome carrying the generator as it is at the
  moment of the panic.
* The busy-wait loop of `tilNextMillis` is given fuel: the number of clock
  readings it may take before the model gives up.
* The mutex is not modelled: the embedding is the sequential semantics of one
  call running after another.
-/

namespace Snowflake

/-! ## Machine integers -/

/-- Reduction of a natural number to the `uint64` range. -/
def wrap64 (n : Nat) : Nat := n % 2 ^ 64

/-- Subtraction of `uint64` values (wraps around below zero). -/
def sub64 (a b : Nat) : Nat := wrap64 (wrap64 a + (2 ^ 64 - wrap64 b))

/-- Left shift of a `uint64` value (bits shifted past bit 63 are dropped). -/
def shl64 (a s : Nat) : Nat := wrap64 (a <<< s)

/-- Reduction of an integer to the `int64` range (two's complement). -/
def wrapInt64 (x : Int) : Int := (x + 2 ^ 63) % 2 ^ 64 - 2 ^ 63

/-- Conversion `uint64(x)` of a signed integer. -/
def toUint64 (x : Int) : Nat := (x % 2 ^ 64).toNat

/-- Reduction of a natural number to the `uint8` range. -/
def wrap8 (n : Nat) : Nat := n % 2 ^ 8

/-! ## Constants (`const ( ... )`) -/

def epoch : Nat := 1602388800000

def workerIdBits : Nat := 5

def dataCenterIdBits : Nat := 5

def sequenceBits : Nat := 12

/-- Untyped constant `-1 ^ (-1 << workerIdBits)` (`^` is exclusive or). -/
def maxWorkerId : Int := Int.xor (-1) ((-1 : Int) <<< (workerIdBits : Int))

/-- Untyped constant `-1 ^ (-1 << dataCenterIdBits)`. -/
def maxDatacenterId : Int := Int.xor (-1) ((-1 : Int) <<< (dataCenterIdBits : Int))

/-- Untyped constant `-1 ^ (-1 << sequenceBits)`. -/
def sequenceMask : Int := Int.xor (-1) ((-1 : Int) <<< (sequenceBits : Int))

/-- Constant `uint64(sequenceBits)`. -/
def workerIdShift : Nat := wrap8 sequenceBits

/-- Constant `uint64(sequenceBits + workerIdBits)`, the sum taken in `uint8`. -/
def datacenterIdShift : Nat := wrap8 (sequenceBits + workerIdBits)

/-- Constant `uint64(sequenceBits + workerIdBits + dataCenterIdBits)`. -/
def timestampLeftShift : Nat := wrap8 (wrap8 (sequenceBits + workerIdBits) + dataCenterIdBits)

/-! ## The generator -/

/-- The fields of `type SnowFlake struct` other than the mutex. -/
structure SnowFlake where
  workerID : Nat
  datacenterID : Nat
  lastTimestamp : Nat
  sequence : Nat
deriving DecidableEq, Repr

/-- Constructor `NewSnowFlake`: `none` stands for `panic(1)`.  The tests
`workerID < 0` and `datacenterID < 0` of the source are on unsigned values. -/
def NewSnowFlake (workerID datacenterID : Nat) : Option SnowFlake :=
  if (workerID > maxWorkerId.toNat ∨ workerID < 0) ∨
      (datacenterID > maxDatacenterId.toNat ∨ datacenterID < 0) then
    none
  else
    some { workerID := workerID, datacenterID := datacenterID, lastTimestamp := 0, sequence := 0 }

/-- The wall clock: reading number `k` of `time.Now().UnixNano()`. -/
abbrev Clock := Nat → Int

/-- Method `genMillTimestamp`, evaluated on reading number `pos` of the clock:
`uint64(time.Now().UnixNano() / 1e6)`, the division truncating towards zero. -/
def genMillTimestamp (c : Clock) (pos : Nat) : Nat :=
  toUint64 (Int.tdiv (wrapInt64 (c pos)) 1000000)

/-- Method `tilNextMillis`: reads the clock until a reading exceeds
`lastTimestamp`.  `fuel` bounds the number of readings; the result is the
timestamp returned and the index of the next unread reading, or `none` when
the fuel is used up before the loop exits. -/
def tilNextMillis (c : Clock) (lastTimestamp : Nat) : Nat → Nat → Option (Nat × Nat)
  | 0, _ => none
  | fuel + 1, pos =>
    let timestamp := genMillTimestamp c pos
    if timestamp ≤ lastTimestamp then
      tilNextMillis c lastTimestamp fuel (pos + 1)
    else
      some (timestamp, pos + 1)

/-- The outcome of one call of `NextID`. -/
inductive Outcome where
  /-- The call returned `id`; the generator is now `r`, and `pos` is the index
  of the next unread clock reading. -/
  | returned (id : Nat) (r : SnowFlake) (pos : Nat)
  /-- The call ended in `panic(1)` with the generator in state `r`. -/
  | panicked (r : SnowFlake) (pos : Nat)
  /-- The call is still inside `tilNextMillis` when the fuel is used up. -/
  | spinning
deriving DecidableEq, Repr

/-- The expression assigned to `id` in `NextID`. -/
def composeID (timestamp datacenterID workerID sequence : Nat) : Nat :=
  shl64 (sub64 timestamp epoch) timestampLeftShift |||
    shl64 datacenterID datacenterIdShift |||
    shl64 workerID workerIdShift |||
    sequence

/-- Method `NextID`, started with `pos` the index of the next unread clock
reading and `fuel` the number of readings the busy wait may take. -/
def NextID (fuel : Nat) (c : Clock) (pos : Nat) (r : SnowFlake) : Outcome :=
  let timestamp := genMillTimestamp c pos
  let pos := pos + 1
  if timestamp < r.lastTimestamp then
    .panicked r pos
  else
    let branch : Option (SnowFlake × Nat × Nat) :=
      if timestamp = r.lastTimestamp then
        let r := { r with sequence := wrap64 (r.sequence + 1) &&& sequenceMask.toNat }
        if r.sequence = 0 then
          match tilNextMillis c r.lastTimestamp fuel pos with
          | some (timestamp, pos) => some (r, timestamp, pos)
          | none => none
        else
          some (r, timestamp, pos)
      else
        some ({ r with sequence := 0 }, timestamp, pos)
    match branch with
    | none => .spinning
    | some (r, timestamp, pos) =>
      let r := { r with lastTimestamp := timestamp }
      .returned (composeID timestamp r.datacenterID r.workerID r.sequence) r pos

/-- A run of `n` successive calls of `NextID`, each returning: the ids issued,
each with the generator as it is after the call.  `none` when one of the calls
panics or is still spinning when its fuel is used up. -/
def calls (fuel : Nat) (c : Clock) : Nat → Nat → SnowFlake → Option (List (Nat × SnowFlake))
  | 0, _, _ => some []
  | n + 1, pos, r =>
    match NextID fuel c pos r with
    | .returned id r' pos' =>
      match calls fuel c n pos' r' with
      | some l => some ((id, r') :: l)
      | none => none
    | _ => none

/-- The generator and the index of the next unread clock reading after `n`
successive returning calls of `NextID`; `none` as for `calls`. -/
def runState (fuel : Nat) (c : Clock) : Nat → Nat → SnowFlake → Option (SnowFlake × Nat)
  | 0, pos, r => some (r, pos)
  | n + 1, pos, r =>
    match NextID fuel c pos r with
    | .returned _ r' pos' => runState fuel c n pos' r'
    | _ => none

/-- The id formula in the words of the specification:
`((now - epoch) << 22) | (datacenter_id << 17) | (worker_id << 12) | sequence`
with `epoch = 1602388800000`, in 64-bit unsigned arithmetic. -/
def specID (now datacenter_id worker_id sequence : Nat) : Nat :=
  (((now % 2 ^ 64 + (2 ^ 64 - 1602388800000)) % 2 ^ 64) <<< 22) % 2 ^ 64 |||
    (datacenter_id <<< 17) % 2 ^ 64 |||
    (worker_id <<< 12) % 2 ^ 64 |||
    sequence

/-- Lexicographic order on (timestamp, sequence) pairs of generator states. -/
def stampLt (a b : SnowFlake) : Prop :=
  a.lastTimestamp < b.lastTimestamp ∨
    (a.lastTimestamp = b.lastTimestamp ∧ a.sequence < b.sequence)

instance (a b : SnowFlake) : Decidable (stampLt a b) := by
  unfold stampLt; infer_instance

/-! ## Constants evaluated -/

theorem maxWorkerId_toNat : maxWorkerId.toNat = 31 := by decide

theorem maxDatacenterId_toNat : maxDatacenterId.toNat = 31 := by decide

theorem sequenceMask_toNat : sequenceMask.toNat = 4095 := by decide

theorem workerIdShift_val : workerIdShift = 12 := by decide

theorem datacenterIdShift_val : datacenterIdShift = 17 := by decide

theorem timestampLeftShift_val : timestampLeftShift = 22 := by decide

theorem epoch_val : epoch = 1602388800000 := rfl

/-! ## Clock readings -/

theorem toUint64_lt (x : Int) : toUint64 x < 2 ^ 64 := by
  unfold toUint64
  have h1 : 0 ≤ x % 2 ^ 64 := Int.emod_nonneg _ (by norm_num)
  have h2 : x % 2 ^ 64 < 2 ^ 64 := Int.emod_lt_of_pos _ (by norm_num)
  omega

theorem genMillTimestamp_lt (c : Clock) (pos : Nat) : genMillTimestamp c pos < 2 ^ 64 :=
  toUint64_lt _

/-! ## The busy wait -/

theorem tilNextMillis_some (c : Clock) (last : Nat) :
    ∀ (fuel pos t p : Nat), tilNextMillis c last fuel pos = some (t, p) →
      pos < p ∧ p ≤ pos + fuel ∧ t = genMillTimestamp c (p - 1) ∧ last < t ∧
        ∀ k, pos ≤ k → k < p - 1 → genMillTimestamp c k ≤ last := by
  intro fuel
  induction fuel with
  | zero => intro pos t p h; simp [tilNextMillis] at h
  | succ fuel ih =>
    intro pos t p h
    simp only [tilNextMillis] at h
    by_cases hle : genMillTimestamp c pos ≤ last
    · rw [if_pos hle] at h
      obtain ⟨h1, h2, h3, h4, h5⟩ := ih (pos + 1) t p h
      refine ⟨by omega, by omega, h3, h4, ?_⟩
      intro k hk1 hk2
      by_cases hk : k = pos
      · subst hk; exact hle
      · exact h5 k (by omega) hk2
    · rw [if_neg hle] at h
      simp only [Option.some.injEq, Prod.mk.injEq] at h
      obtain ⟨h1, h2⟩ := h
      subst h2
      refine ⟨by omega, by omega, by simpa using h1.symm, by omega, ?_⟩
      intro k hk1 hk2
      simp at hk2
      omega

theorem tilNextMillis_first (c : Clock) (last : Nat) :
    ∀ (k fuel pos : Nat), k < fuel →
      (∀ j, j < k → genMillTimestamp c (pos + j) ≤ last) →
      last < genMillTimestamp c (pos + k) →
      tilNextMillis c last fuel pos = some (genMillTimestamp c (pos + k), pos + k + 1) := by
  intro k
  induction k with
  | zero =>
    intro fuel pos hf _ hk
    obtain ⟨f, rfl⟩ : ∃ f, fuel = f + 1 := ⟨fuel - 1, by omega⟩
    simp only [tilNextMillis]
    rw [if_neg (by simpa using hk)]
    simp
  | succ k ih =>
    intro fuel pos hf hlow hk
    obtain ⟨f, rfl⟩ : ∃ f, fuel = f + 1 := ⟨fuel - 1, by omega⟩
    simp only [tilNextMillis]
    rw [if_pos (by simpa using hlow 0 (by omega))]
    have := ih f (pos + 1) (by omega)
      (fun j hj => by have := hlow (j + 1) (by omega); rwa [show pos + 1 + j = pos + (j + 1) by omega])
      (by rwa [show pos + 1 + k = pos + (k + 1) by omega])
    rw [this, show pos + 1 + k = pos + (k + 1) by omega]

theorem tilNextMillis_none (c : Clock) (last : Nat) :
    ∀ (fuel pos : Nat), tilNextMillis c last fuel pos = none →
      ∀ k, pos ≤ k → k < pos + fuel → genMillTimestamp c k ≤ last := by
  intro fuel
  induction fuel with
  | zero => intro pos _ k h1 h2; omega
  | succ fuel ih =>
    intro pos h k h1 h2
    simp only [tilNextMillis] at h
    by_cases hle : genMillTimestamp c pos ≤ last
    · rw [if_pos hle] at h
      by_cases hk : k = pos
      · subst hk; exact hle
      · exact ih (pos + 1) h k (by omega) (by omega)
    · rw [if_neg hle] at h
      simp at h

/-! ## One call of `NextID`, branch by branch -/

/-- The sequence number after the increment `(r.sequence + 1) & sequenceMask`. -/
theorem seq_step (s : Nat) :
    wrap64 (s + 1) &&& sequenceMask.toNat = (s + 1) % 2 ^ 64 % 4096 := by
  rw [sequenceMask_toNat]
  exact Nat.and_pow_two_sub_one_eq_mod (wrap64 (s + 1)) 12

theorem NextID_rewound (fuel : Nat) (c : Clock) (pos : Nat) (r : SnowFlake)
    (h : genMillTimestamp c pos < r.lastTimestamp) :
    NextID fuel c pos r = .panicked r (pos + 1) := by
  simp only [NextID, if_pos h]

theorem NextID_fresh (fuel : Nat) (c : Clock) (pos : Nat) (r : SnowFlake)
    (h : r.lastTimestamp < genMillTimestamp c pos) :
    NextID fuel c pos r =
      .returned (composeID (genMillTimestamp c pos) r.datacenterID r.workerID 0)
        { r with sequence := 0, lastTimestamp := genMillTimestamp c pos } (pos + 1) := by
  have h1 : ¬ genMillTimestamp c pos < r.lastTimestamp := by omega
  have h2 : ¬ genMillTimestamp c pos = r.lastTimestamp := by omega
  simp only [NextID, if_neg h1, if_neg h2]

theorem NextID_same (fuel : Nat) (c : Clock) (pos : Nat) (r : SnowFlake)
    (h : genMillTimestamp c pos = r.lastTimestamp)
    (hs : (r.sequence + 1) % 2 ^ 64 % 4096 ≠ 0) :
    NextID fuel c pos r =
      .returned (composeID r.lastTimestamp r.datacenterID r.workerID
          ((r.sequence + 1) % 2 ^ 64 % 4096))
        { r with sequence := (r.sequence + 1) % 2 ^ 64 % 4096 } (pos + 1) := by
  simp only [NextID, h, lt_irrefl, if_false, if_true, seq_step, if_neg hs]

theorem NextID_wrapped (fuel : Nat) (c : Clock) (pos : Nat) (r : SnowFlake)
    (h : genMillTimestamp c pos = r.lastTimestamp)
    (hs : (r.sequence + 1) % 2 ^ 64 % 4096 = 0) :
    NextID fuel c pos r =
      match tilNextMillis c r.lastTimestamp fuel (pos + 1) with
      | some (t, p) =>
        .returned (composeID t r.datacenterID r.workerID 0)
          { r with sequence := 0, lastTimestamp := t } p
      | none => .spinning := by
  simp only [NextID, h, lt_irrefl, if_false, if_true, seq_step, hs]
  cases tilNextMillis c r.lastTimestamp fuel (pos + 1) with
  | none => rfl
  | some tp => rfl

/-- A call panics only on a clock reading below `lastTimestamp`, and then
with the generator untouched. -/
theorem panicked_iff (fuel : Nat) (c : Clock) (pos : Nat) (r r' : SnowFlake) (pos' : Nat) :
    NextID fuel c pos r = .panicked r' pos' ↔
      (r' = r ∧ genMillTimestamp c pos < r.lastTimestamp ∧ pos' = pos + 1) := by
  constructor
  · intro h
    rcases Nat.lt_trichotomy (genMillTimestamp c pos) r.lastTimestamp with hlt | heq | hgt
    · rw [NextID_rewound fuel c pos r hlt] at h
      simp only [Outcome.panicked.injEq] at h
      exact ⟨h.1.symm, hlt, h.2.symm⟩
    · by_cases hs : (r.sequence + 1) % 2 ^ 64 % 4096 = 0
      · rw [NextID_wrapped fuel c pos r heq hs] at h
        cases htil : tilNextMillis c r.lastTimestamp fuel (pos + 1) with
        | none => rw [htil] at h; cases h
        | some tp => rw [htil] at h; cases h
      · rw [NextID_same fuel c pos r heq hs] at h
        cases h
    · rw [NextID_fresh fuel c pos r hgt] at h
      cases h
  · rintro ⟨rfl, hlt, rfl⟩
    exact NextID_rewound fuel c pos r' hlt

/-- Everything a returning call establishes. -/
theorem NextID_returned (fuel : Nat) (c : Clock) (pos : Nat) (r : SnowFlake)
    (id : Nat) (r' : SnowFlake) (pos' : Nat)
    (h : NextID fuel c pos r = .returned id r' pos') :
    r'.workerID = r.workerID ∧ r'.datacenterID = r.datacenterID ∧
      id = composeID r'.lastTimestamp r.datacenterID r.workerID r'.sequence ∧
      r'.sequence ≤ 4095 ∧ r.lastTimestamp ≤ genMillTimestamp c pos ∧
      genMillTimestamp c pos ≤ r'.lastTimestamp ∧
      r'.lastTimestamp = genMillTimestamp c (pos' - 1) ∧ pos < pos' ∧
      ((r'.lastTimestamp = r.lastTimestamp ∧ pos' = pos + 1 ∧
          r'.sequence = (r.sequence + 1) % 2 ^ 64 % 4096 ∧ r'.sequence ≠ 0) ∨
        (r.lastTimestamp < r'.lastTimestamp ∧ r'.sequence = 0)) := by
  rcases Nat.lt_trichotomy (genMillTimestamp c pos) r.lastTimestamp with hlt | heq | hgt
  · rw [NextID_rewound fuel c pos r hlt] at h
    cases h
  · by_cases hs : (r.sequence + 1) % 2 ^ 64 % 4096 = 0
    · rw [NextID_wrapped fuel c pos r heq hs] at h
      cases htil : tilNextMillis c r.lastTimestamp fuel (pos + 1) with
      | none => rw [htil] at h; cases h
      | some tp =>
        obtain ⟨t, p⟩ := tp
        rw [htil] at h
        simp only [Outcome.returned.injEq] at h
        obtain ⟨h1, h2, h3⟩ := h
        subst h2 h3
        obtain ⟨q1, q2, q3, q4, q5⟩ := tilNextMillis_some c r.lastTimestamp fuel (pos + 1) t p htil
        refine ⟨rfl, rfl, h1.symm, by simp, by omega, by simp; omega, by simpa using q3,
          by omega, Or.inr ⟨by simpa using q4, rfl⟩⟩
    · rw [NextID_same fuel c pos r heq hs] at h
      simp only [Outcome.returned.injEq] at h
      obtain ⟨h1, h2, h3⟩ := h
      subst h2 h3
      refine ⟨rfl, rfl, h1.symm, ?_, by omega, by simp; omega, by simp; omega, by omega,
        Or.inl ⟨rfl, rfl, rfl, hs⟩⟩
      simp only
      omega
  · rw [NextID_fresh fuel c pos r hgt] at h
    simp only [Outcome.returned.injEq] at h
    obtain ⟨h1, h2, h3⟩ := h
    subst h2 h3
    refine ⟨rfl, rfl, h1.symm, by simp, by omega, by simp, by simp, by omega,
      Or.inr ⟨by simpa using hgt, rfl⟩⟩

/-! ## The bit layout of an id -/

theorem pack_or (tm dc w s : Nat) (hdc : dc ≤ 31) (hw : w ≤ 31) (hs : s ≤ 4095) :
    2 ^ 22 * tm ||| dc * 2 ^ 17 ||| w * 2 ^ 12 ||| s =
      tm * 2 ^ 22 + dc * 2 ^ 17 + w * 2 ^ 12 + s := by
  have h1 : 2 ^ 22 * tm ||| dc * 2 ^ 17 = 2 ^ 17 * (32 * tm + dc) := by
    rw [← Nat.mul_add_lt_is_or (by omega) tm]; omega
  have h2 : 2 ^ 17 * (32 * tm + dc) ||| w * 2 ^ 12 = 2 ^ 12 * (32 * (32 * tm + dc) + w) := by
    rw [← Nat.mul_add_lt_is_or (by omega) _]; omega
  rw [h1, h2, ← Nat.mul_add_lt_is_or (by omega) _]; omega

/-- With the origin fields and the sequence inside their bit fields, the
bitwise "or" of the id formula is a sum of four disjoint fields. -/
theorem composeID_packed (t dc w s : Nat) (hdc : dc ≤ 31) (hw : w ≤ 31) (hs : s ≤ 4095) :
    composeID t dc w s = sub64 t epoch % 2 ^ 42 * 2 ^ 22 + dc * 2 ^ 17 + w * 2 ^ 12 + s := by
  unfold composeID shl64 wrap64
  rw [timestampLeftShift_val, datacenterIdShift_val, workerIdShift_val]
  simp only [Nat.shiftLeft_eq]
  have e1 : sub64 t epoch * 2 ^ 22 % 2 ^ 64 = 2 ^ 22 * (sub64 t epoch % 2 ^ 42) := by omega
  have e2 : dc * 2 ^ 17 % 2 ^ 64 = dc * 2 ^ 17 := by omega
  have e3 : w * 2 ^ 12 % 2 ^ 64 = w * 2 ^ 12 := by omega
  rw [e1, e2, e3]
  exact pack_or _ dc w s hdc hw hs

theorem composeID_eq_specID (t dc w s : Nat) : composeID t dc w s = specID t dc w s := by
  unfold composeID specID shl64 sub64 wrap64
  rw [timestampLeftShift_val, datacenterIdShift_val, workerIdShift_val, epoch_val]
  rw [show 1602388800000 % 2 ^ 64 = 1602388800000 by decide]

/-- Inside the window `[epoch, epoch + 2 ^ 42)` the timestamp field of an id is
the timestamp's offset from the epoch. -/
theorem sub64_window (t : Nat) (h1 : epoch ≤ t) (h2 : t < epoch + 2 ^ 42) :
    sub64 t epoch % 2 ^ 42 = t - epoch := by
  unfold sub64 wrap64
  rw [epoch_val] at *
  omega

/-! ## Runs of successive calls -/

theorem stampLt_trans {a b d : SnowFlake} (h1 : stampLt a b) (h2 : stampLt b d) :
    stampLt a d := by
  unfold stampLt at *
  omega

theorem stampLt_le {a b : SnowFlake} (h : stampLt a b) :
    a.lastTimestamp ≤ b.lastTimestamp := by
  unfold stampLt at h
  omega

/-- A returning call moves the (timestamp, sequence) pair strictly up. -/
theorem NextID_stampLt (fuel : Nat) (c : Clock) (pos : Nat) (r : SnowFlake)
    (id : Nat) (r' : SnowFlake) (pos' : Nat) (hs : r.sequence ≤ 4095)
    (h : NextID fuel c pos r = .returned id r' pos') : stampLt r r' := by
  obtain ⟨-, -, -, -, -, -, -, -, h9⟩ := NextID_returned fuel c pos r id r' pos' h
  unfold stampLt
  rcases h9 with ⟨e1, -, e2, e3⟩ | ⟨e1, -⟩
  · right
    refine ⟨e1.symm, ?_⟩
    omega
  · left
    exact e1

/-- The invariants of a run of returning calls. -/
theorem calls_run (fuel : Nat) (c : Clock) :
    ∀ (n pos : Nat) (r : SnowFlake) (l : List (Nat × SnowFlake)),
      r.sequence ≤ 4095 → calls fuel c n pos r = some l →
      l.length = n ∧
        (∀ e ∈ l, stampLt r e.2 ∧ e.2.sequence ≤ 4095 ∧
          e.2.workerID = r.workerID ∧ e.2.datacenterID = r.datacenterID ∧
          e.1 = composeID e.2.lastTimestamp r.datacenterID r.workerID e.2.sequence ∧
          ∃ k, pos ≤ k ∧ e.2.lastTimestamp = genMillTimestamp c k) ∧
        l.Pairwise (fun a b => stampLt a.2 b.2) := by
  intro n
  induction n with
  | zero =>
    intro pos r l _ h
    simp only [calls, Option.some.injEq] at h
    subst h
    simp
  | succ n ih =>
    intro pos r l hs h
    simp only [calls] at h
    cases hN : NextID fuel c pos r with
    | panicked r' p' => rw [hN] at h; cases h
    | spinning => rw [hN] at h; cases h
    | returned id r' pos' =>
      rw [hN] at h
      simp only at h
      cases hc : calls fuel c n pos' r' with
      | none => rw [hc] at h; cases h
      | some l' =>
        rw [hc] at h
        simp only [Option.some.injEq] at h
        subst h
        obtain ⟨s1, s2, s3, s4, -, -, s7, s8, -⟩ := NextID_returned fuel c pos r id r' pos' hN
        have hstep := NextID_stampLt fuel c pos r id r' pos' hs hN
        obtain ⟨i1, i2, i3⟩ := ih pos' r' l' s4 hc
        refine ⟨by simp [i1], ?_, ?_⟩
        · intro e he
          rcases List.mem_cons.1 he with rfl | he
          · exact ⟨hstep, s4, s1, s2, s3, pos' - 1, by omega, s7⟩
          · obtain ⟨j1, j2, j3, j4, j5, k, j6, j7⟩ := i2 e he
            refine ⟨stampLt_trans hstep j1, j2, by rw [j3, s1], by rw [j4, s2], ?_,
              k, by omega, j7⟩
            rw [j5, s1, s2]
        · exact List.Pairwise.cons (fun e he => (i2 e he).1) i3

/-- Along a stretch of a run that stays on one timestamp the sequence numbers
count up. -/
theorem run_same_stamp (l : List (Nat × SnowFlake))
    (hp : l.Pairwise (fun a b => stampLt a.2 b.2)) (i m : Nat) (hi : i + m < l.length)
    (heq : (l[i]).2.lastTimestamp = (l[i + m]).2.lastTimestamp) :
    ∀ k, (hk : k ≤ m) → (l[i]).2.sequence + k ≤ (l[i + k]).2.sequence := by
  rw [List.pairwise_iff_getElem] at hp
  have hlast : ∀ k, (hk : k ≤ m) → (l[i + k]).2.lastTimestamp = (l[i]).2.lastTimestamp := by
    intro k hk
    have h1 : (l[i]).2.lastTimestamp ≤ (l[i + k]).2.lastTimestamp := by
      rcases Nat.eq_zero_or_pos k with rfl | hpos
      · exact le_refl _
      · exact stampLt_le (hp i (i + k) (by omega) (by omega) (by omega))
    have h2 : (l[i + k]).2.lastTimestamp ≤ (l[i + m]).2.lastTimestamp := by
      rcases Nat.eq_or_lt_of_le hk with rfl | hlt
      · exact le_refl _
      · exact stampLt_le (hp (i + k) (i + m) (by omega) (by omega) (by omega))
    omega
  intro k
  induction k with
  | zero => intro _; exact le_refl _
  | succ k ih =>
    intro hk
    have h1 := ih (by omega)
    have h2 := hp (i + k) (i + (k + 1)) (by omega) (by omega) (by omega)
    have h3 := hlast k (by omega)
    have h4 := hlast (k + 1) hk
    unfold stampLt at h2
    omega

theorem length_le_of_pairwise_lt (l : List Nat) (m : Nat) (hp : l.Pairwise (· < ·))
    (hb : ∀ x ∈ l, x < m) : l.length ≤ m := by
  have hnd : l.Nodup := hp.imp (fun h => Nat.ne_of_lt h)
  have h := (List.subperm_of_subset hnd (fun x hx => List.mem_range.2 (hb x hx))).length_le
  simpa using h

/-- In a run, at most 4096 ids carry any one timestamp. -/
theorem run_stamp_count (l : List (Nat × SnowFlake))
    (hp : l.Pairwise (fun a b => stampLt a.2 b.2))
    (hb : ∀ e ∈ l, e.2.sequence ≤ 4095) (t : Nat) :
    (l.filter (fun e => decide (e.2.lastTimestamp = t))).length ≤ 4096 := by
  have h1 : (l.filter (fun e => decide (e.2.lastTimestamp = t))).Pairwise
      (fun a b => a.2.sequence < b.2.sequence) := by
    refine List.Pairwise.imp_of_mem ?_ (hp.filter _)
    intro a b ha hb' hab
    have ea := (List.mem_filter.1 ha).2
    have eb := (List.mem_filter.1 hb').2
    simp only [decide_eq_true_eq] at ea eb
    unfold stampLt at hab
    omega
  have h2 := length_le_of_pairwise_lt
    ((l.filter (fun e => decide (e.2.lastTimestamp = t))).map (fun e => e.2.sequence)) 4096
    (List.pairwise_map.2 h1)
    (by
      intro x hx
      obtain ⟨e, he, rfl⟩ := List.mem_map.1 hx
      have := hb e (List.mem_filter.1 he).1
      omega)
  simpa using h2

/-- Under a clock that never steps back, the generator never gets ahead of
the next clock reading. -/
theorem runState_behind_clock (fuel : Nat) (c : Clock) :
    ∀ (n pos : Nat) (r r' : SnowFlake) (p' : Nat),
      (∀ k, pos ≤ k → genMillTimestamp c k ≤ genMillTimestamp c (k + 1)) →
      r.lastTimestamp ≤ genMillTimestamp c pos →
      runState fuel c n pos r = some (r', p') →
      pos ≤ p' ∧ r'.lastTimestamp ≤ genMillTimestamp c p' := by
  intro n
  induction n with
  | zero =>
    intro pos r r' p' _ hinv h
    simp only [runState, Option.some.injEq, Prod.mk.injEq] at h
    obtain ⟨h1, h2⟩ := h
    subst h1 h2
    exact ⟨le_refl _, hinv⟩
  | succ n ih =>
    intro pos r r' p' hmono hinv h
    simp only [runState] at h
    cases hN : NextID fuel c pos r with
    | panicked r'' p'' => rw [hN] at h; cases h
    | spinning => rw [hN] at h; cases h
    | returned id r₁ pos₁ =>
      rw [hN] at h
      simp only at h
      obtain ⟨-, -, -, -, -, -, s7, s8, -⟩ := NextID_returned fuel c pos r id r₁ pos₁ hN
      have hstep : r₁.lastTimestamp ≤ genMillTimestamp c pos₁ := by
        have := hmono (pos₁ - 1) (by omega)
        rw [show pos₁ - 1 + 1 = pos₁ by omega] at this
        omega
      obtain ⟨i1, i2⟩ := ih pos₁ r₁ r' p' (fun k hk => hmono k (by omega)) hstep h
      exact ⟨by omega, i2⟩

/-! ## Claims -/

/-- Claim C1: whenever `NextID` returns, the id is
`((T - epoch) << 22) | (datacenterID << 17) | (workerID << 12) | S` in `uint64`
arithmetic, with `T` and `S` the `lastTimestamp` and `sequence` stored after
the call and `epoch = 1602388800000`; and a fresh generator with
`datacenterID = 0`, `workerID = 0` whose clock reads `epoch + 1` returns
`1 << 22 = 4194304`. -/
theorem NextID_id_layout :
    (∀ (fuel : Nat) (c : Clock) (pos : Nat) (r : SnowFlake) (id : Nat) (r' : SnowFlake)
        (pos' : Nat), NextID fuel c pos r = .returned id r' pos' →
        id = specID r'.lastTimestamp r.datacenterID r.workerID r'.sequence ∧
          r'.datacenterID = r.datacenterID ∧ r'.workerID = r.workerID) ∧
      (∀ (fuel : Nat) (c : Clock) (pos : Nat),
        genMillTimestamp c pos = 1602388800000 + 1 →
        ∃ g, NewSnowFlake 0 0 = some g ∧
          NextID fuel c pos g =
            .returned 4194304 ⟨0, 0, 1602388800000 + 1, 0⟩ (pos + 1) ∧
          4194304 = 1 <<< 22) := by
  refine ⟨?_, ?_⟩
  · intro fuel c pos r id r' pos' h
    obtain ⟨h1, h2, h3, -⟩ := NextID_returned fuel c pos r id r' pos' h
    exact ⟨by rw [h3, composeID_eq_specID], h2, h1⟩
  · intro fuel c pos h
    refine ⟨⟨0, 0, 0, 0⟩, by decide, ?_, by decide⟩
    rw [NextID_fresh fuel c pos _ (by rw [h]; decide), h]
    simp only [Outcome.returned.injEq, and_true]
    decide

/-- Witness for C1: a clock stuck at `epoch + 1` milliseconds. -/
theorem NextID_id_layout_witness :
    NextID 0 (fun _ => 1602388800001000000) 0 ⟨0, 0, 0, 0⟩ =
        .returned 4194304 ⟨0, 0, 1602388800001, 0⟩ 1 ∧
      4194304 = specID 1602388800001 0 0 0 ∧
      ∃ g, NewSnowFlake 0 0 = some g ∧
        NextID 0 (fun _ => 1602388800001000000) 0 g =
          .returned 4194304 ⟨0, 0, 1602388800000 + 1, 0⟩ (0 + 1) ∧
        4194304 = 1 <<< 22 :=
  ⟨by decide,
    (NextID_id_layout.1 0 (fun _ => 1602388800001000000) 0 ⟨0, 0, 0, 0⟩ 4194304
      ⟨0, 0, 1602388800001, 0⟩ 1 (by decide)).1,
    NextID_id_layout.2 0 (fun _ => 1602388800001000000) 0 (by decide)⟩

/-- Claim C3: `NextID` panics exactly when the first clock reading of the call
is below `lastTimestamp`; a panicking call issues no id and leaves the
generator (all four fields) as it was. -/
theorem NextID_panics_iff (fuel : Nat) (c : Clock) (pos : Nat) (r : SnowFlake) :
    ((∃ r' pos', NextID fuel c pos r = .panicked r' pos') ↔
        genMillTimestamp c pos < r.lastTimestamp) ∧
      (∀ r' pos', NextID fuel c pos r = .panicked r' pos' → r' = r) ∧
      (genMillTimestamp c pos < r.lastTimestamp →
        ∀ id r' pos', NextID fuel c pos r ≠ .returned id r' pos') := by
  have key : ∀ r' pos', NextID fuel c pos r = .panicked r' pos' →
      r' = r ∧ genMillTimestamp c pos < r.lastTimestamp := by
    intro r' pos' h
    obtain ⟨h1, h2, -⟩ := (panicked_iff fuel c pos r r' pos').1 h
    exact ⟨h1, h2⟩
  refine ⟨⟨?_, ?_⟩, ?_, ?_⟩
  · rintro ⟨r', pos', h⟩
    exact (key r' pos' h).2
  · intro h
    exact ⟨r, pos + 1, NextID_rewound fuel c pos r h⟩
  · intro r' pos' h
    exact (key r' pos' h).1
  · intro h id r' pos' hret
    rw [NextID_rewound fuel c pos r h] at hret
    cases hret

/-- Witness for C3: the clock reads 5 ms while `lastTimestamp` is 9. -/
theorem NextID_panics_iff_witness :
    NextID 3 (fun _ => 5000000) 0 ⟨1, 2, 9, 7⟩ = .panicked ⟨1, 2, 9, 7⟩ 1 ∧
      genMillTimestamp (fun _ => 5000000) 0 < 9 ∧
      ∀ id r' pos', NextID 3 (fun _ => 5000000) 0 ⟨1, 2, 9, 7⟩ ≠ .returned id r' pos' :=
  ⟨by decide, by decide,
    (NextID_panics_iff 3 (fun _ => 5000000) 0 ⟨1, 2, 9, 7⟩).2.2 (by decide)⟩

/-- Decoding of a packed id: the three low fields. -/
theorem decode_packed (tm dc w s : Nat) (hdc : dc ≤ 31) (hw : w ≤ 31) (hs : s ≤ 4095) :
    ((tm * 2 ^ 22 + dc * 2 ^ 17 + w * 2 ^ 12 + s) >>> 17) &&& 31 = dc ∧
      ((tm * 2 ^ 22 + dc * 2 ^ 17 + w * 2 ^ 12 + s) >>> 12) &&& 31 = w ∧
      (tm * 2 ^ 22 + dc * 2 ^ 17 + w * 2 ^ 12 + s) &&& 0xFFF = s := by
  have a5 : ∀ x : Nat, x &&& 31 = x % 2 ^ 5 := fun x => Nat.and_pow_two_sub_one_eq_mod x 5
  have a12 : ∀ x : Nat, x &&& 0xFFF = x % 2 ^ 12 := fun x => Nat.and_pow_two_sub_one_eq_mod x 12
  simp only [a5, a12, Nat.shiftRight_eq_div_pow]
  refine ⟨by omega, by omega, by omega⟩

/-- Claim C4: for a generator with `workerID <= 31` and `datacenterID <= 31`,
in any state and under any clock, every id returned by `NextID` decodes back:
`(id >> 17) & 31 = datacenterID`, `(id >> 12) & 31 = workerID` and
`id & 0xFFF` is the sequence stored after the call. -/
theorem NextID_decodes (fuel : Nat) (c : Clock) (pos : Nat) (r : SnowFlake)
    (id : Nat) (r' : SnowFlake) (pos' : Nat)
    (hw : r.workerID ≤ 31) (hd : r.datacenterID ≤ 31)
    (h : NextID fuel c pos r = .returned id r' pos') :
    (id >>> 17) &&& 31 = r.datacenterID ∧ (id >>> 12) &&& 31 = r.workerID ∧
      id &&& 0xFFF = r'.sequence := by
  obtain ⟨-, -, h3, h4, -⟩ := NextID_returned fuel c pos r id r' pos' h
  rw [h3, composeID_packed _ _ _ _ hd hw h4]
  exact decode_packed _ _ _ _ hd hw h4

/-- Witness for C4: generator (worker 31, datacenter 17) in its 4001st id of
millisecond `epoch + 5`. -/
theorem NextID_decodes_witness :
    NextID 0 (fun _ => 1602388800005000000) 0 ⟨31, 17, 1602388800005, 4000⟩ =
        .returned 23330721 ⟨31, 17, 1602388800005, 4001⟩ 1 ∧
      ((23330721 >>> 17) &&& 31 = 17 ∧ (23330721 >>> 12) &&& 31 = 31 ∧
        23330721 &&& 0xFFF = 4001) :=
  ⟨by decide,
    NextID_decodes 0 (fun _ => 1602388800005000000) 0 ⟨31, 17, 1602388800005, 4000⟩
      23330721 ⟨31, 17, 1602388800005, 4001⟩ 1 (by decide) (by decide) (by decide)⟩

/-- Claim C5: two generators whose `(datacenterID, workerID)` pairs lie in
`[0,31] x [0,31]` and differ never return the same id, whatever their states
and clocks. -/
theorem NextID_origins_disjoint (fuel₁ fuel₂ : Nat) (c₁ c₂ : Clock) (pos₁ pos₂ : Nat)
    (r₁ r₂ : SnowFlake) (id₁ id₂ : Nat) (r₁' r₂' : SnowFlake) (pos₁' pos₂' : Nat)
    (hw₁ : r₁.workerID ≤ 31) (hd₁ : r₁.datacenterID ≤ 31)
    (hw₂ : r₂.workerID ≤ 31) (hd₂ : r₂.datacenterID ≤ 31)
    (hne : (r₁.datacenterID, r₁.workerID) ≠ (r₂.datacenterID, r₂.workerID))
    (h₁ : NextID fuel₁ c₁ pos₁ r₁ = .returned id₁ r₁' pos₁')
    (h₂ : NextID fuel₂ c₂ pos₂ r₂ = .returned id₂ r₂' pos₂') :
    id₁ ≠ id₂ := by
  intro heq
  obtain ⟨-, -, a3, a4, -⟩ := NextID_returned fuel₁ c₁ pos₁ r₁ id₁ r₁' pos₁' h₁
  obtain ⟨-, -, b3, b4, -⟩ := NextID_returned fuel₂ c₂ pos₂ r₂ id₂ r₂' pos₂' h₂
  rw [composeID_packed _ _ _ _ hd₁ hw₁ a4] at a3
  rw [composeID_packed _ _ _ _ hd₂ hw₂ b4] at b3
  obtain ⟨da, wa, -⟩ := decode_packed (sub64 r₁'.lastTimestamp epoch % 2 ^ 42) _ _ _ hd₁ hw₁ a4
  obtain ⟨db, wb, -⟩ := decode_packed (sub64 r₂'.lastTimestamp epoch % 2 ^ 42) _ _ _ hd₂ hw₂ b4
  rw [← a3] at da wa
  rw [← b3] at db wb
  apply hne
  rw [← da, ← wa, ← db, ← wb, heq]

/-- Witness for C5: the same state and clock on origins (0, 1) and (1, 0). -/
theorem NextID_origins_disjoint_witness : (4198400 : Nat) ≠ 4325376 :=
  NextID_origins_disjoint 0 0 (fun _ => 1602388800001000000) (fun _ => 1602388800001000000)
    0 0 ⟨1, 0, 0, 0⟩ ⟨0, 1, 0, 0⟩ 4198400 4325376
    ⟨1, 0, 1602388800001, 0⟩ ⟨0, 1, 1602388800001, 0⟩ 1 1
    (by decide) (by decide) (by decide) (by decide) (by decide) (by decide) (by decide)

/-- Claim C7: `NewSnowFlake(workerID, datacenterID)` panics exactly when
`workerID > 31` or `datacenterID > 31`; it panics for (32, 0) and (0, 32),
succeeds for (31, 31), and a generator it returns holds the very values it was
given, both in range (nothing is clamped or truncated). -/
theorem NewSnowFlake_fails_iff (workerID datacenterID : Nat) :
    (NewSnowFlake workerID datacenterID = none ↔ (workerID > 31 ∨ datacenterID > 31)) ∧
      NewSnowFlake 32 0 = none ∧ NewSnowFlake 0 32 = none ∧
      NewSnowFlake 31 31 = some ⟨31, 31, 0, 0⟩ ∧
      (∀ g, NewSnowFlake workerID datacenterID = some g →
        g.workerID = workerID ∧ g.datacenterID = datacenterID ∧
          workerID ≤ 31 ∧ datacenterID ≤ 31) := by
  refine ⟨?_, by decide, by decide, by decide, ?_⟩
  · unfold NewSnowFlake
    rw [maxWorkerId_toNat, maxDatacenterId_toNat]
    by_cases h : (workerID > 31 ∨ workerID < 0) ∨ (datacenterID > 31 ∨ datacenterID < 0)
    · rw [if_pos h]
      simp only [true_iff]
      omega
    · rw [if_neg h]
      simp only [false_iff, reduceCtorEq]
      omega
  · intro g hg
    unfold NewSnowFlake at hg
    rw [maxWorkerId_toNat, maxDatacenterId_toNat] at hg
    by_cases h : (workerID > 31 ∨ workerID < 0) ∨ (datacenterID > 31 ∨ datacenterID < 0)
    · rw [if_pos h] at hg
      cases hg
    · rw [if_neg h] at hg
      simp only [Option.some.injEq] at hg
      subst hg
      refine ⟨rfl, rfl, by omega, by omega⟩

/-- Witness for C7: construction with the out-of-range datacenter id 2 ^ 64 - 1. -/
theorem NewSnowFlake_fails_iff_witness :
    NewSnowFlake 5 18446744073709551615 = none ∧
      (∀ g, NewSnowFlake 7 9 = some g →
        g.workerID = 7 ∧ g.datacenterID = 9 ∧ 7 ≤ 31 ∧ 9 ≤ 31) :=
  ⟨(NewSnowFlake_fails_iff 5 18446744073709551615).1.2 (Or.inr (by decide)),
    (NewSnowFlake_fails_iff 7 9).2.2.2.2⟩

/-- Claim C8: whenever `NewSnowFlake(workerID, datacenterID)` succeeds, the
generator holds exactly the given `workerID` and `datacenterID`, with
`lastTimestamp = 0` and `sequence = 0`. -/
theorem NewSnowFlake_zero_init (workerID datacenterID : Nat) (g : SnowFlake)
    (h : NewSnowFlake workerID datacenterID = some g) :
    g.workerID = workerID ∧ g.datacenterID = datacenterID ∧
      g.lastTimestamp = 0 ∧ g.sequence = 0 := by
  unfold NewSnowFlake at h
  split at h
  · cases h
  · simp only [Option.some.injEq] at h
    subst h
    exact ⟨rfl, rfl, rfl, rfl⟩

/-- Witness for C8: construction of generator (worker 30, datacenter 2). -/
theorem NewSnowFlake_zero_init_witness :
    NewSnowFlake 30 2 = some ⟨30, 2, 0, 0⟩ ∧
      ((⟨30, 2, 0, 0⟩ : SnowFlake).workerID = 30 ∧ (⟨30, 2, 0, 0⟩ : SnowFlake).datacenterID = 2 ∧
        (⟨30, 2, 0, 0⟩ : SnowFlake).lastTimestamp = 0 ∧ (⟨30, 2, 0, 0⟩ : SnowFlake).sequence = 0) :=
  ⟨by decide, NewSnowFlake_zero_init 30 2 ⟨30, 2, 0, 0⟩ (by decide)⟩

/-- Claim C9: sequence exhaustion is handled by waiting.  From a state with
`sequence = 4095` whose first clock reading equals `lastTimestamp`, under a
clock whose later readings eventually exceed `lastTimestamp`, `NextID` returns
(given the fuel to reach that reading; with less it is still waiting, and it
never panics): `lastTimestamp` becomes the first later reading strictly above
the old `lastTimestamp`, `sequence` becomes 0, and the id is the one composed
from that timestamp and sequence 0. -/
theorem NextID_waits_on_exhaustion (c : Clock) (pos : Nat) (r : SnowFlake)
    (hseq : r.sequence = 4095)
    (hfirst : genMillTimestamp c pos = r.lastTimestamp)
    (hev : ∃ m, r.lastTimestamp < genMillTimestamp c (pos + 1 + m)) :
    ∃ k, r.lastTimestamp < genMillTimestamp c (pos + 1 + k) ∧
      (∀ j, j < k → genMillTimestamp c (pos + 1 + j) ≤ r.lastTimestamp) ∧
      (∀ fuel, k < fuel →
        NextID fuel c pos r =
          .returned (specID (genMillTimestamp c (pos + 1 + k)) r.datacenterID r.workerID 0)
            { r with lastTimestamp := genMillTimestamp c (pos + 1 + k), sequence := 0 }
            (pos + 1 + k + 1)) ∧
      (∀ fuel, fuel ≤ k → NextID fuel c pos r = .spinning) := by
  have hs : (r.sequence + 1) % 2 ^ 64 % 4096 = 0 := by rw [hseq]; decide
  refine ⟨Nat.find hev, Nat.find_spec hev, ?_, ?_, ?_⟩
  · intro j hj
    have := Nat.find_min hev hj
    omega
  · intro fuel hfuel
    rw [NextID_wrapped fuel c pos r hfirst hs,
      tilNextMillis_first c r.lastTimestamp (Nat.find hev) fuel (pos + 1) hfuel
        (fun j hj => by have := Nat.find_min hev hj; omega) (Nat.find_spec hev)]
    simp only [composeID_eq_specID]
  · intro fuel hfuel
    rw [NextID_wrapped fuel c pos r hfirst hs]
    cases htil : tilNextMillis c r.lastTimestamp fuel (pos + 1) with
    | none => rfl
    | some tp =>
      obtain ⟨t, p⟩ := tp
      exfalso
      obtain ⟨q1, q2, q3, q4, -⟩ := tilNextMillis_some c r.lastTimestamp fuel (pos + 1) t p htil
      have hmin := Nat.find_min hev (show p - 1 - (pos + 1) < Nat.find hev by omega)
      apply hmin
      rw [show pos + 1 + (p - 1 - (pos + 1)) = p - 1 by omega, ← q3]
      exact q4

/-- Witness for C9: the clock reads 7 ms three times, then 9 ms. -/
theorem NextID_waits_on_exhaustion_witness :
    ∃ k, 7 < genMillTimestamp (fun i => if i < 3 then 7000000 else 9000000) (0 + 1 + k) ∧
      (∀ j, j < k →
        genMillTimestamp (fun i => if i < 3 then 7000000 else 9000000) (0 + 1 + j) ≤ 7) ∧
      (∀ fuel, k < fuel →
        NextID fuel (fun i => if i < 3 then 7000000 else 9000000) 0 ⟨3, 4, 7, 4095⟩ =
          .returned
            (specID (genMillTimestamp (fun i => if i < 3 then 7000000 else 9000000) (0 + 1 + k))
              4 3 0)
            ⟨3, 4, genMillTimestamp (fun i => if i < 3 then 7000000 else 9000000) (0 + 1 + k), 0⟩
            (0 + 1 + k + 1)) ∧
      (∀ fuel, fuel ≤ k →
        NextID fuel (fun i => if i < 3 then 7000000 else 9000000) 0 ⟨3, 4, 7, 4095⟩ =
          .spinning) :=
  NextID_waits_on_exhaustion (fun i => if i < 3 then 7000000 else 9000000) 0 ⟨3, 4, 7, 4095⟩
    rfl (by decide) ⟨2, by decide⟩

theorem calls_lastTimestamp_mono (fuel : Nat) (c : Clock) :
    ∀ (n pos : Nat) (r : SnowFlake) (l : List (Nat × SnowFlake)),
      calls fuel c n pos r = some l →
      (∀ e ∈ l, r.lastTimestamp ≤ e.2.lastTimestamp) ∧
        l.Pairwise (fun a b => a.2.lastTimestamp ≤ b.2.lastTimestamp) := by
  intro n
  induction n with
  | zero =>
    intro pos r l h
    simp only [calls, Option.some.injEq] at h
    subst h
    simp
  | succ n ih =>
    intro pos r l h
    simp only [calls] at h
    cases hN : NextID fuel c pos r with
    | panicked r' p' => rw [hN] at h; cases h
    | spinning => rw [hN] at h; cases h
    | returned id r' pos' =>
      rw [hN] at h
      simp only at h
      cases hc : calls fuel c n pos' r' with
      | none => rw [hc] at h; cases h
      | some l' =>
        rw [hc] at h
        simp only [Option.some.injEq] at h
        subst h
        obtain ⟨i1, i2⟩ := ih pos' r' l' hc
        obtain ⟨-, -, -, -, s1, s2, -⟩ := NextID_returned fuel c pos r id r' pos' hN
        have hstep : r.lastTimestamp ≤ r'.lastTimestamp := le_trans s1 s2
        refine ⟨?_, ?_⟩
        · intro e he
          rcases List.mem_cons.1 he with rfl | he
          · exact hstep
          · exact le_trans hstep (i1 e he)
        · exact List.Pairwise.cons (fun e he => i1 e he) i2

/-- Claim C10: if `NextID` returns, `lastTimestamp` after the call is at least
`lastTimestamp` before it; hence over any run of returning calls the
`lastTimestamp` values never decrease. -/
theorem lastTimestamp_never_decreases (fuel : Nat) (c : Clock) (pos : Nat) (r : SnowFlake) :
    (∀ id r' pos', NextID fuel c pos r = .returned id r' pos' →
        r.lastTimestamp ≤ r'.lastTimestamp) ∧
      (∀ n l, calls fuel c n pos r = some l →
        (∀ e ∈ l, r.lastTimestamp ≤ e.2.lastTimestamp) ∧
          l.Pairwise (fun a b => a.2.lastTimestamp ≤ b.2.lastTimestamp)) := by
  refine ⟨?_, ?_⟩
  · intro id r' pos' h
    obtain ⟨-, -, -, -, s1, s2, -⟩ := NextID_returned fuel c pos r id r' pos' h
    exact le_trans s1 s2
  · intro n l h
    exact calls_lastTimestamp_mono fuel c n pos r l h

/-- Witness for C10: three calls under a clock reading `epoch + 7`, `epoch + 7`,
`epoch + 8` milliseconds. -/
theorem lastTimestamp_never_decreases_witness :
    calls 0 (fun i => if i < 2 then 1602388800007000000 else 1602388800008000000) 3 0
        ⟨1, 1, 1602388800005, 0⟩ =
        some [(29495296, ⟨1, 1, 1602388800007, 0⟩), (29495297, ⟨1, 1, 1602388800007, 1⟩),
          (33689600, ⟨1, 1, 1602388800008, 0⟩)] ∧
      (1602388800005 : Nat) ≤ 1602388800007 ∧
      List.Pairwise (fun a b : Nat × SnowFlake => a.2.lastTimestamp ≤ b.2.lastTimestamp)
        [(29495296, ⟨1, 1, 1602388800007, 0⟩), (29495297, ⟨1, 1, 1602388800007, 1⟩),
          (33689600, ⟨1, 1, 1602388800008, 0⟩)] :=
  ⟨by decide,
    (lastTimestamp_never_decreases 0
      (fun i => if i < 2 then 1602388800007000000 else 1602388800008000000) 0
      ⟨1, 1, 1602388800005, 0⟩).1 29495296 ⟨1, 1, 1602388800007, 0⟩ 1 (by decide),
    ((lastTimestamp_never_decreases 0
      (fun i => if i < 2 then 1602388800007000000 else 1602388800008000000) 0
      ⟨1, 1, 1602388800005, 0⟩).2 3 _ (by decide)).2⟩

/-- Claim C6: in a run of returning `NextID` calls from a generator made by
`NewSnowFlake`, no two issued ids carry both the same timestamp and the same
sequence; so at most 4096 ids are issued for any one timestamp, the id issued
4096 calls after another has a strictly later timestamp, no run of more than
4096 calls returns under a clock stuck at one value, and a call that finds the
sequence at 4095 in the same millisecond returns only after reading the clock
again, with a strictly later timestamp. -/
theorem run_stamps_distinct (fuel : Nat) (c : Clock) (pos workerID datacenterID : Nat)
    (g : SnowFlake) (n : Nat) (l : List (Nat × SnowFlake))
    (hg : NewSnowFlake workerID datacenterID = some g)
    (hrun : calls fuel c n pos g = some l) :
    l.Pairwise (fun a b =>
        ¬ (a.2.lastTimestamp = b.2.lastTimestamp ∧ a.2.sequence = b.2.sequence)) ∧
      (∀ t, (l.filter (fun e => decide (e.2.lastTimestamp = t))).length ≤ 4096) ∧
      (∀ i, (h : i + 4096 < l.length) →
        (l[i]).2.lastTimestamp < (l[i + 4096]).2.lastTimestamp) ∧
      (∀ t, (∀ k, genMillTimestamp c k = t) → n ≤ 4096) ∧
      (∀ r id r' p p', r.sequence = 4095 → genMillTimestamp c p = r.lastTimestamp →
        NextID fuel c p r = .returned id r' p' →
        r.lastTimestamp < r'.lastTimestamp ∧ p + 2 ≤ p' ∧ r'.sequence = 0) := by
  have hg0 : g.sequence ≤ 4095 := by
    unfold NewSnowFlake at hg
    split at hg
    · cases hg
    · simp only [Option.some.injEq] at hg
      subst hg
      exact Nat.zero_le _
  obtain ⟨hlen, hmem, hpw⟩ := calls_run fuel c n pos g l hg0 hrun
  have hcount := run_stamp_count l hpw (fun e he => (hmem e he).2.1)
  refine ⟨?_, hcount, ?_, ?_, ?_⟩
  · refine hpw.imp ?_
    intro a b hab hfalse
    unfold stampLt at hab
    omega
  · intro i h
    have hle : (l[i]).2.lastTimestamp ≤ (l[i + 4096]).2.lastTimestamp :=
      stampLt_le ((List.pairwise_iff_getElem.1 hpw) i (i + 4096) (by omega) h (by omega))
    rcases Nat.eq_or_lt_of_le hle with heq | hlt
    · exfalso
      have h1 := run_same_stamp l hpw i 4096 h heq 4096 (le_refl _)
      have h2 := (hmem (l[i + 4096]) (List.getElem_mem _)).2.1
      omega
    · exact hlt
  · intro t ht
    have hall : l.filter (fun e => decide (e.2.lastTimestamp = t)) = l := by
      rw [List.filter_eq_self]
      intro e he
      obtain ⟨k, -, hk⟩ := (hmem e he).2.2.2.2.2
      simp only [decide_eq_true_eq]
      rw [hk, ht k]
    have := hcount t
    rw [hall, hlen] at this
    exact this
  · intro r id r' p p' hseq hfirst hret
    have hs : (r.sequence + 1) % 2 ^ 64 % 4096 = 0 := by rw [hseq]; decide
    rw [NextID_wrapped fuel c p r hfirst hs] at hret
    cases htil : tilNextMillis c r.lastTimestamp fuel (p + 1) with
    | none => rw [htil] at hret; cases hret
    | some tp =>
      obtain ⟨t, q⟩ := tp
      rw [htil] at hret
      simp only [Outcome.returned.injEq] at hret
      obtain ⟨-, h2, h3⟩ := hret
      subst h2 h3
      obtain ⟨q1, -, -, q4, -⟩ := tilNextMillis_some c r.lastTimestamp fuel (p + 1) t q htil
      exact ⟨q4, by omega, rfl⟩

/-- Witness for C6: three calls of a fresh generator under a clock reading
`epoch + 7`, `epoch + 7`, `epoch + 8` milliseconds. -/
theorem run_stamps_distinct_witness :
    NewSnowFlake 1 1 = some ⟨1, 1, 0, 0⟩ ∧
      calls 0 (fun i => if i < 2 then 1602388800007000000 else 1602388800008000000) 3 0
        ⟨1, 1, 0, 0⟩ =
        some [(29495296, ⟨1, 1, 1602388800007, 0⟩), (29495297, ⟨1, 1, 1602388800007, 1⟩),
          (33689600, ⟨1, 1, 1602388800008, 0⟩)] ∧
      List.Pairwise (fun a b : Nat × SnowFlake =>
          ¬ (a.2.lastTimestamp = b.2.lastTimestamp ∧ a.2.sequence = b.2.sequence))
        [(29495296, ⟨1, 1, 1602388800007, 0⟩), (29495297, ⟨1, 1, 1602388800007, 1⟩),
          (33689600, ⟨1, 1, 1602388800008, 0⟩)] :=
  ⟨by decide, by decide,
    (run_stamps_distinct 0
      (fun i => if i < 2 then 1602388800007000000 else 1602388800008000000) 0 1 1
      ⟨1, 1, 0, 0⟩ 3 _ (by decide) (by decide)).1⟩

/-- Counterexample to C2 as stated: under a non-decreasing clock that crosses
the epoch (readings `epoch - 1`, then `epoch`), and under one that crosses
`epoch + 2 ^ 42` (readings `epoch + 2 ^ 42 - 1`, then `epoch + 2 ^ 42`), a fresh
generator returns `2 ^ 64 - 2 ^ 22` and then `0`. -/
theorem ids_drop_outside_window :
    NewSnowFlake 0 0 = some ⟨0, 0, 0, 0⟩ ∧
      ((∀ k, genMillTimestamp (fun i => if i = 0 then 1602388799999000000
            else 1602388800000000000) k ≤
          genMillTimestamp (fun i => if i = 0 then 1602388799999000000
            else 1602388800000000000) (k + 1)) ∧
        calls 0 (fun i => if i = 0 then 1602388799999000000 else 1602388800000000000) 2 0
            ⟨0, 0, 0, 0⟩ =
          some [(18446744073705357312, ⟨0, 0, 1602388799999, 0⟩),
            (0, ⟨0, 0, 1602388800000, 0⟩)]) ∧
      ((∀ k, genMillTimestamp (fun i => if i = 0 then 6000435311103000000
            else 6000435311104000000) k ≤
          genMillTimestamp (fun i => if i = 0 then 6000435311103000000
            else 6000435311104000000) (k + 1)) ∧
        calls 0 (fun i => if i = 0 then 6000435311103000000 else 6000435311104000000) 2 0
            ⟨0, 0, 0, 0⟩ =
          some [(18446744073705357312, ⟨0, 0, 6000435311103, 0⟩),
            (0, ⟨0, 0, 6000435311104, 0⟩)]) ∧
      ¬ ((18446744073705357312 : Nat) < 0) := by
  refine ⟨by decide, ⟨?_, by decide⟩, ⟨?_, by decide⟩, by decide⟩
  · intro k
    cases k with
    | zero => decide
    | succ k => simp [genMillTimestamp]
  · intro k
    cases k with
    | zero => decide
    | succ k => simp [genMillTimestamp]

/-- Claim C2, amended: for a generator made by `NewSnowFlake` and a
non-decreasing sequence of clock readings that all lie in
`[epoch, epoch + 2 ^ 42)`, the ids returned by successive `NextID` calls are
strictly increasing (each id is below every later one), and no call of the
run panics. -/
theorem ids_strictly_increasing_in_window (fuel : Nat) (c : Clock)
    (pos workerID datacenterID : Nat) (g : SnowFlake)
    (hg : NewSnowFlake workerID datacenterID = some g)
    (hmono : ∀ k, genMillTimestamp c k ≤ genMillTimestamp c (k + 1))
    (hwin : ∀ k, epoch ≤ genMillTimestamp c k ∧ genMillTimestamp c k < epoch + 2 ^ 42) :
    (∀ n l, calls fuel c n pos g = some l → l.Pairwise (fun a b => a.1 < b.1)) ∧
      (∀ n r p, runState fuel c n pos g = some (r, p) →
        ∀ r' p', NextID fuel c p r ≠ .panicked r' p') := by
  have hg' : g = ⟨workerID, datacenterID, 0, 0⟩ ∧ workerID ≤ 31 ∧ datacenterID ≤ 31 := by
    unfold NewSnowFlake at hg
    rw [maxWorkerId_toNat, maxDatacenterId_toNat] at hg
    split at hg
    · cases hg
    · next hcond =>
      simp only [Option.some.injEq] at hg
      exact ⟨hg.symm, by omega, by omega⟩
  obtain ⟨hgeq, hw, hd⟩ := hg'
  refine ⟨?_, ?_⟩
  · intro n l hrun
    obtain ⟨-, hmem, hpw⟩ := calls_run fuel c n pos g l (by rw [hgeq]; exact Nat.zero_le _) hrun
    refine List.Pairwise.imp_of_mem ?_ hpw
    intro a b ha hb hab
    obtain ⟨-, a2, -, -, a5, ka, -, a7⟩ := hmem a ha
    obtain ⟨-, b2, -, -, b5, kb, -, b7⟩ := hmem b hb
    have hwg : g.workerID ≤ 31 := by rw [hgeq]; exact hw
    have hdg : g.datacenterID ≤ 31 := by rw [hgeq]; exact hd
    rw [composeID_packed _ _ _ _ hdg hwg a2,
      sub64_window _ (by rw [a7]; exact (hwin ka).1) (by rw [a7]; exact (hwin ka).2)] at a5
    rw [composeID_packed _ _ _ _ hdg hwg b2,
      sub64_window _ (by rw [b7]; exact (hwin kb).1) (by rw [b7]; exact (hwin kb).2)] at b5
    have wa := (hwin ka).1
    have wb := (hwin kb).1
    rw [← a7] at wa
    rw [← b7] at wb
    unfold stampLt at hab
    rw [a5, b5]
    rcases hab with hlt | ⟨heq, hlt⟩
    · have : a.2.lastTimestamp - epoch + 1 ≤ b.2.lastTimestamp - epoch := by omega
      omega
    · rw [heq]
      omega
  · intro n r p hst r' p' hpan
    obtain ⟨-, hinv⟩ := runState_behind_clock fuel c n pos g r p (fun k _ => hmono k)
      (by rw [hgeq]; exact Nat.zero_le _) hst
    have hlt := ((panicked_iff fuel c p r r' p').1 hpan).2
    omega

/-- Witness for C2 (amended): three calls of a fresh generator under a clock
reading `epoch + 7`, `epoch + 7`, `epoch + 8` milliseconds. -/
theorem ids_strictly_increasing_in_window_witness :
    NewSnowFlake 1 1 = some ⟨1, 1, 0, 0⟩ ∧
      calls 0 (fun i => if i < 2 then 1602388800007000000 else 1602388800008000000) 3 0
        ⟨1, 1, 0, 0⟩ =
        some [(29495296, ⟨1, 1, 1602388800007, 0⟩), (29495297, ⟨1, 1, 1602388800007, 1⟩),
          (33689600, ⟨1, 1, 1602388800008, 0⟩)] ∧
      List.Pairwise (fun a b : Nat × SnowFlake => a.1 < b.1)
        [(29495296, ⟨1, 1, 1602388800007, 0⟩), (29495297, ⟨1, 1, 1602388800007, 1⟩),
          (33689600, ⟨1, 1, 1602388800008, 0⟩)] :=
  ⟨by decide, by decide,
    (ids_strictly_increasing_in_window 0
      (fun i => if i < 2 then 1602388800007000000 else 1602388800008000000) 0 1 1
      ⟨1, 1, 0, 0⟩ (by decide)
      (by
        intro k
        by_cases h1 : k < 2
        · by_cases h2 : k + 1 < 2
          · simp [genMillTimestamp, h1, h2]
          · simp only [genMillTimestamp, h1, h2, if_true, if_false]
            decide
        · have h2 : ¬ k + 1 < 2 := by omega
          simp [genMillTimestamp, h1, h2])
      (by
        intro k
        by_cases h1 : k < 2
        · simp only [genMillTimestamp, h1, if_true]
          decide
        · simp only [genMillTimestamp, h1, if_false]
          decide)).1 3 _ (by decide)⟩

/-! ## Further lemmas on the layout and on runs -/

theorem or_mul_two_pow (k a b : Nat) : 2 ^ k * a ||| 2 ^ k * b = 2 ^ k * (a ||| b) := by
  apply Nat.eq_of_testBit_eq
  intro j
  simp only [Nat.testBit_or, Nat.testBit_mul_pow_two]
  cases decide (j ≥ k) <;> simp

/-- The three shifted fields of an id leave its low 12 bits to the sequence,
whatever the origin ids are. -/
theorem composeID_low (t dc w s : Nat) (hs : s ≤ 4095) :
    composeID t dc w s = composeID t dc w 0 + s := by
  unfold composeID shl64 wrap64
  rw [timestampLeftShift_val, datacenterIdShift_val, workerIdShift_val]
  simp only [Nat.shiftLeft_eq]
  have e1 : sub64 t epoch * 2 ^ 22 % 2 ^ 64 = 2 ^ 12 * (sub64 t epoch * 2 ^ 10 % 2 ^ 52) := by
    omega
  have e2 : dc * 2 ^ 17 % 2 ^ 64 = 2 ^ 12 * (dc * 2 ^ 5 % 2 ^ 52) := by omega
  have e3 : w * 2 ^ 12 % 2 ^ 64 = 2 ^ 12 * (w % 2 ^ 52) := by omega
  rw [e1, e2, e3, or_mul_two_pow, or_mul_two_pow, Nat.or_zero]
  exact (Nat.mul_add_lt_is_or (by omega) _).symm

theorem NewSnowFlake_some (workerID datacenterID : Nat) (g : SnowFlake)
    (h : NewSnowFlake workerID datacenterID = some g) :
    g = ⟨workerID, datacenterID, 0, 0⟩ ∧ workerID ≤ 31 ∧ datacenterID ≤ 31 := by
  unfold NewSnowFlake at h
  rw [maxWorkerId_toNat, maxDatacenterId_toNat] at h
  split at h
  · cases h
  · simp only [Option.some.injEq] at h
    exact ⟨h.symm, by omega, by omega⟩

theorem runState_origin (fuel : Nat) (c : Clock) :
    ∀ (n pos : Nat) (r r' : SnowFlake) (p' : Nat),
      runState fuel c n pos r = some (r', p') →
      r'.workerID = r.workerID ∧ r'.datacenterID = r.datacenterID := by
  intro n
  induction n with
  | zero =>
    intro pos r r' p' h
    simp only [runState, Option.some.injEq, Prod.mk.injEq] at h
    obtain ⟨h1, -⟩ := h
    subst h1
    exact ⟨rfl, rfl⟩
  | succ n ih =>
    intro pos r r' p' h
    simp only [runState] at h
    cases hN : NextID fuel c pos r with
    | panicked r'' p'' => rw [hN] at h; cases h
    | spinning => rw [hN] at h; cases h
    | returned id r₁ pos₁ =>
      rw [hN] at h
      simp only at h
      obtain ⟨s1, s2, -⟩ := NextID_returned fuel c pos r id r₁ pos₁ hN
      obtain ⟨i1, i2⟩ := ih pos₁ r₁ r' p' h
      exact ⟨by rw [i1, s1], by rw [i2, s2]⟩

/-! ## Claims, continued -/

/-- Claim C11: the sequence field stays within [0, 4095]: it is 0 in a freshly
constructed generator, and after every returning `NextID` call, from any prior
state and under any clock, the stored sequence is at most 4095. -/
theorem sequence_in_range :
    (∀ workerID datacenterID g, NewSnowFlake workerID datacenterID = some g →
        g.sequence = 0) ∧
      (∀ fuel c pos r id r' pos', NextID fuel c pos r = .returned id r' pos' →
        0 ≤ r'.sequence ∧ r'.sequence ≤ 4095) := by
  refine ⟨?_, ?_⟩
  · intro workerID datacenterID g h
    rw [(NewSnowFlake_some workerID datacenterID g h).1]
  · intro fuel c pos r id r' pos' h
    obtain ⟨-, -, -, h4, -⟩ := NextID_returned fuel c pos r id r' pos' h
    exact ⟨Nat.zero_le _, h4⟩

/-- Witness for C11: construction of generator (worker 3, datacenter 4), and a
call that takes the sequence from 4000 to 4001. -/
theorem sequence_in_range_witness :
    NewSnowFlake 3 4 = some ⟨3, 4, 0, 0⟩ ∧ (⟨3, 4, 0, 0⟩ : SnowFlake).sequence = 0 ∧
      NextID 0 (fun _ => 1602388800005000000) 0 ⟨31, 17, 1602388800005, 4000⟩ =
        .returned 23330721 ⟨31, 17, 1602388800005, 4001⟩ 1 ∧
      (0 ≤ (⟨31, 17, 1602388800005, 4001⟩ : SnowFlake).sequence ∧
        (⟨31, 17, 1602388800005, 4001⟩ : SnowFlake).sequence ≤ 4095) :=
  ⟨by decide, sequence_in_range.1 3 4 _ (by decide), by decide,
    sequence_in_range.2 0 (fun _ => 1602388800005000000) 0 ⟨31, 17, 1602388800005, 4000⟩
      23330721 ⟨31, 17, 1602388800005, 4001⟩ 1 (by decide)⟩

/-- Claim C12: for every generator state and every returning `NextID` call, the
sequence stored after the call is 0 if and only if `lastTimestamp` after the
call is strictly greater than `lastTimestamp` before it. -/
theorem sequence_zero_iff_new_millisecond (fuel : Nat) (c : Clock) (pos : Nat)
    (r : SnowFlake) (id : Nat) (r' : SnowFlake) (pos' : Nat)
    (h : NextID fuel c pos r = .returned id r' pos') :
    r'.sequence = 0 ↔ r.lastTimestamp < r'.lastTimestamp := by
  obtain ⟨-, -, -, -, -, -, -, -, h9⟩ := NextID_returned fuel c pos r id r' pos' h
  rcases h9 with ⟨e1, -, -, e4⟩ | ⟨e1, e2⟩
  · constructor
    · intro h0
      exact absurd h0 e4
    · intro hlt
      omega
  · exact ⟨fun _ => e1, fun _ => e2⟩

/-- Witness for C12: a call in the same millisecond (sequence 4000 to 4001,
timestamp kept) and the reading of that call. -/
theorem sequence_zero_iff_new_millisecond_witness :
    NextID 0 (fun _ => 1602388800005000000) 0 ⟨31, 17, 1602388800005, 4000⟩ =
        .returned 23330721 ⟨31, 17, 1602388800005, 4001⟩ 1 ∧
      ((⟨31, 17, 1602388800005, 4001⟩ : SnowFlake).sequence = 0 ↔
        (⟨31, 17, 1602388800005, 4000⟩ : SnowFlake).lastTimestamp <
          (⟨31, 17, 1602388800005, 4001⟩ : SnowFlake).lastTimestamp) :=
  ⟨by decide,
    sequence_zero_iff_new_millisecond 0 (fun _ => 1602388800005000000) 0
      ⟨31, 17, 1602388800005, 4000⟩ 23330721 ⟨31, 17, 1602388800005, 4001⟩ 1 (by decide)⟩

/-- Claim C14: `NextID` leaves `workerID` and `datacenterID` unchanged, whether
it returns or panics; so a generator created by `NewSnowFlake` keeps the ids
it was given, both at most 31, through every run of calls. -/
theorem origin_immutable (fuel : Nat) (c : Clock) (pos : Nat) (r : SnowFlake) :
    (∀ id r' pos', NextID fuel c pos r = .returned id r' pos' →
        r'.workerID = r.workerID ∧ r'.datacenterID = r.datacenterID) ∧
      (∀ r' pos', NextID fuel c pos r = .panicked r' pos' →
        r'.workerID = r.workerID ∧ r'.datacenterID = r.datacenterID) ∧
      (∀ workerID datacenterID n r' pos',
        NewSnowFlake workerID datacenterID = some r →
        runState fuel c n pos r = some (r', pos') →
        r'.workerID = workerID ∧ r'.datacenterID = datacenterID ∧
          r'.workerID ≤ 31 ∧ r'.datacenterID ≤ 31) ∧
      (∀ workerID datacenterID n l,
        NewSnowFlake workerID datacenterID = some r →
        calls fuel c n pos r = some l →
        ∀ e ∈ l, e.2.workerID = workerID ∧ e.2.datacenterID = datacenterID ∧
          e.2.workerID ≤ 31 ∧ e.2.datacenterID ≤ 31) := by
  refine ⟨?_, ?_, ?_, ?_⟩
  · intro id r' pos' h
    obtain ⟨h1, h2, -⟩ := NextID_returned fuel c pos r id r' pos' h
    exact ⟨h1, h2⟩
  · intro r' pos' h
    obtain ⟨h1, -⟩ := (panicked_iff fuel c pos r r' pos').1 h
    rw [h1]
    exact ⟨rfl, rfl⟩
  · intro workerID datacenterID n r' pos' hg hrun
    obtain ⟨hgeq, hw, hd⟩ := NewSnowFlake_some workerID datacenterID r hg
    obtain ⟨h1, h2⟩ := runState_origin fuel c n pos r r' pos' hrun
    rw [hgeq] at h1 h2
    simp only at h1 h2
    exact ⟨h1, h2, by omega, by omega⟩
  · intro workerID datacenterID n l hg hrun e he
    obtain ⟨hgeq, hw, hd⟩ := NewSnowFlake_some workerID datacenterID r hg
    obtain ⟨-, hmem, -⟩ := calls_run fuel c n pos r l (by rw [hgeq]; exact Nat.zero_le _) hrun
    obtain ⟨-, -, h3, h4, -⟩ := hmem e he
    rw [hgeq] at h3 h4
    simp only at h3 h4
    exact ⟨h3, h4, by omega, by omega⟩

/-- Witness for C14: a returning call, a panicking call, and a run of three
calls of the generator made by `NewSnowFlake(1, 1)`. -/
theorem origin_immutable_witness :
    ((⟨31, 17, 1602388800005, 4001⟩ : SnowFlake).workerID = 31 ∧
        (⟨31, 17, 1602388800005, 4001⟩ : SnowFlake).datacenterID = 17) ∧
      ((⟨1, 2, 9, 7⟩ : SnowFlake).workerID = 1 ∧ (⟨1, 2, 9, 7⟩ : SnowFlake).datacenterID = 2) ∧
      (∀ e ∈ [((29495296 : Nat), (⟨1, 1, 1602388800007, 0⟩ : SnowFlake)),
          (29495297, ⟨1, 1, 1602388800007, 1⟩), (33689600, ⟨1, 1, 1602388800008, 0⟩)],
        e.2.workerID = 1 ∧ e.2.datacenterID = 1 ∧ e.2.workerID ≤ 31 ∧ e.2.datacenterID ≤ 31) :=
  ⟨(origin_immutable 0 (fun _ => 1602388800005000000) 0 ⟨31, 17, 1602388800005, 4000⟩).1
      23330721 ⟨31, 17, 1602388800005, 4001⟩ 1 (by decide),
    (origin_immutable 3 (fun _ => 5000000) 0 ⟨1, 2, 9, 7⟩).2.1 ⟨1, 2, 9, 7⟩ 1 (by decide),
    (origin_immutable 0
      (fun i => if i < 2 then 1602388800007000000 else 1602388800008000000) 0
      ⟨1, 1, 0, 0⟩).2.2.2 1 1 3 _ (by decide) (by decide)⟩

/-- Claim C17: from a state whose first clock reading equals `lastTimestamp` and
for which `(sequence + 1) & 0xFFF` is not 0, `NextID` returns after a single
clock reading, keeps `lastTimestamp` and sets `sequence` to
`(sequence + 1) mod 4096`; when the prior sequence is at most 4094 the id is
exactly 1 greater than the id composed from the prior timestamp and sequence. -/
theorem NextID_same_millisecond (fuel : Nat) (c : Clock) (pos : Nat) (r : SnowFlake)
    (hfirst : genMillTimestamp c pos = r.lastTimestamp)
    (hnz : wrap64 (r.sequence + 1) &&& 0xFFF ≠ 0) :
    NextID fuel c pos r =
        .returned
          (composeID r.lastTimestamp r.datacenterID r.workerID ((r.sequence + 1) % 4096))
          { r with sequence := (r.sequence + 1) % 4096 } (pos + 1) ∧
      (r.sequence ≤ 4094 →
        composeID r.lastTimestamp r.datacenterID r.workerID ((r.sequence + 1) % 4096) =
          composeID r.lastTimestamp r.datacenterID r.workerID r.sequence + 1) := by
  have hmask : wrap64 (r.sequence + 1) &&& 0xFFF = (r.sequence + 1) % 2 ^ 64 % 4096 := by
    have := seq_step r.sequence
    rwa [sequenceMask_toNat] at this
  have hmod : (r.sequence + 1) % 2 ^ 64 % 4096 = (r.sequence + 1) % 4096 := by omega
  rw [hmask] at hnz
  refine ⟨?_, ?_⟩
  · rw [NextID_same fuel c pos r hfirst hnz, hmod]
  · intro hle
    rw [composeID_low _ _ _ ((r.sequence + 1) % 4096) (by omega),
      composeID_low _ _ _ r.sequence (by omega)]
    omega

/-- Witness for C17: the 4001st id of millisecond `epoch + 5`. -/
theorem NextID_same_millisecond_witness :
    NextID 0 (fun _ => 1602388800005000000) 0 ⟨31, 17, 1602388800005, 4000⟩ =
        .returned (composeID 1602388800005 17 31 ((4000 + 1) % 4096))
          ⟨31, 17, 1602388800005, (4000 + 1) % 4096⟩ (0 + 1) ∧
      ((4000 : Nat) ≤ 4094 →
        composeID 1602388800005 17 31 ((4000 + 1) % 4096) =
          composeID 1602388800005 17 31 4000 + 1) :=
  NextID_same_millisecond 0 (fun _ => 1602388800005000000) 0 ⟨31, 17, 1602388800005, 4000⟩
    (by decide) (by decide)

/-- Counterexample to C13 as stated: a fresh generator reading `epoch - 1`
returns an id whose bits 22 and up hold `2 ^ 42 - 1`, not `-1` (nor its `uint64`
form `2 ^ 64 - 1`); one reading `epoch + 2 ^ 42` returns an id whose bits 22 and
up hold 0, not `2 ^ 42`; and a generator with `datacenterID = 32` reading
`epoch + 2` returns an id whose bits 22 and up hold 3, not 2. -/
theorem timestamp_field_wraps :
    (NextID 0 (fun _ => 1602388799999000000) 0 ⟨0, 0, 0, 0⟩ =
          .returned 18446744073705357312 ⟨0, 0, 1602388799999, 0⟩ 1 ∧
        18446744073705357312 >>> 22 = 4398046511103 ∧
        sub64 1602388799999 epoch = 18446744073709551615 ∧
        (1602388799999 : Int) - (epoch : Int) = -1) ∧
      (NextID 0 (fun _ => 6000435311104000000) 0 ⟨0, 0, 0, 0⟩ =
          .returned 0 ⟨0, 0, 6000435311104, 0⟩ 1 ∧
        0 >>> 22 = 0 ∧
        sub64 6000435311104 epoch = 4398046511104 ∧
        6000435311104 - epoch = 4398046511104) ∧
      (NextID 0 (fun _ => 1602388800002000000) 0 ⟨0, 32, 0, 0⟩ =
          .returned 12582912 ⟨0, 32, 1602388800002, 0⟩ 1 ∧
        12582912 >>> 22 = 3 ∧
        sub64 1602388800002 epoch = 2) := by
  refine ⟨⟨by decide, by decide, by decide, by decide⟩,
    ⟨by decide, by decide, by decide, by decide⟩, ⟨by decide, by decide, by decide⟩⟩

/-- Claim C13, amended: for every id returned by `NextID` on a generator with
`workerID <= 31` and `datacenterID <= 31` whose post-call `lastTimestamp` lies
in `[epoch, epoch + 2 ^ 42)`, the timestamp recovered as `id >> 22` equals the
post-call `lastTimestamp` minus `epoch` and is at least the first clock reading
of the call minus `epoch` (over the integers, and in `uint64` when that reading
is not below `epoch`). -/
theorem timestamp_field_in_window (fuel : Nat) (c : Clock) (pos : Nat) (r : SnowFlake)
    (id : Nat) (r' : SnowFlake) (pos' : Nat)
    (hw : r.workerID ≤ 31) (hd : r.datacenterID ≤ 31)
    (hlo : epoch ≤ r'.lastTimestamp) (hhi : r'.lastTimestamp < epoch + 2 ^ 42)
    (h : NextID fuel c pos r = .returned id r' pos') :
    id >>> 22 = r'.lastTimestamp - epoch ∧
      id >>> 22 = sub64 r'.lastTimestamp epoch ∧
      (genMillTimestamp c pos : Int) - (epoch : Int) ≤ ((id >>> 22 : Nat) : Int) ∧
      (epoch ≤ genMillTimestamp c pos → sub64 (genMillTimestamp c pos) epoch ≤ id >>> 22) := by
  obtain ⟨-, -, h3, h4, -, h6, -⟩ := NextID_returned fuel c pos r id r' pos' h
  have hsub := sub64_window r'.lastTimestamp hlo hhi
  have hshift : id >>> 22 = r'.lastTimestamp - epoch := by
    rw [h3, composeID_packed _ _ _ _ hd hw h4, hsub, Nat.shiftRight_eq_div_pow]
    omega
  have hsub' : sub64 r'.lastTimestamp epoch = r'.lastTimestamp - epoch := by
    unfold sub64 wrap64
    rw [epoch_val] at *
    omega
  refine ⟨hshift, by rw [hshift, hsub'], ?_, ?_⟩
  · rw [hshift]
    omega
  · intro hge
    rw [hshift]
    unfold sub64 wrap64
    rw [epoch_val] at *
    omega

/-- Witness for C13 (amended): the 4001st id of millisecond `epoch + 5`. -/
theorem timestamp_field_in_window_witness :
    NextID 0 (fun _ => 1602388800005000000) 0 ⟨31, 17, 1602388800005, 4000⟩ =
        .returned 23330721 ⟨31, 17, 1602388800005, 4001⟩ 1 ∧
      23330721 >>> 22 = 1602388800005 - epoch :=
  ⟨by decide,
    (timestamp_field_in_window 0 (fun _ => 1602388800005000000) 0
      ⟨31, 17, 1602388800005, 4000⟩ 23330721 ⟨31, 17, 1602388800005, 4001⟩ 1
      (by decide) (by decide) (by decide) (by decide) (by decide)).1⟩

/-- Claim C15: for a generator with `workerID <= 31` and `datacenterID <= 31`
and a returning `NextID` call whose adopted timestamp `T` satisfies
`epoch <= T < epoch + 2 ^ 41`, the id is below `2 ^ 63` (bit 63 is clear), with
`T - epoch` in bits 22..62, the datacenter id in bits 17..21, the worker id in
bits 12..16 and the sequence in bits 0..11. -/
theorem sign_bit_unused (fuel : Nat) (c : Clock) (pos : Nat) (r : SnowFlake)
    (id : Nat) (r' : SnowFlake) (pos' : Nat)
    (hw : r.workerID ≤ 31) (hd : r.datacenterID ≤ 31)
    (hlo : epoch ≤ r'.lastTimestamp) (hhi : r'.lastTimestamp < epoch + 2 ^ 41)
    (h : NextID fuel c pos r = .returned id r' pos') :
    id < 2 ^ 63 ∧ id.testBit 63 = false ∧
      id = (r'.lastTimestamp - epoch) * 2 ^ 22 + r.datacenterID * 2 ^ 17 +
        r.workerID * 2 ^ 12 + r'.sequence ∧
      r'.lastTimestamp - epoch < 2 ^ 41 ∧ r'.sequence < 2 ^ 12 ∧
      id >>> 22 = r'.lastTimestamp - epoch ∧
      (id >>> 17) &&& 31 = r.datacenterID ∧ (id >>> 12) &&& 31 = r.workerID ∧
      id &&& 0xFFF = r'.sequence := by
  obtain ⟨-, -, h3, h4, -⟩ := NextID_returned fuel c pos r id r' pos' h
  have hsub := sub64_window r'.lastTimestamp hlo (by omega)
  have hid : id = (r'.lastTimestamp - epoch) * 2 ^ 22 + r.datacenterID * 2 ^ 17 +
      r.workerID * 2 ^ 12 + r'.sequence := by
    rw [h3, composeID_packed _ _ _ _ hd hw h4, hsub]
  have hT : r'.lastTimestamp - epoch < 2 ^ 41 := by omega
  have hlt : id < 2 ^ 63 := by omega
  obtain ⟨d1, d2, d3⟩ := decode_packed (r'.lastTimestamp - epoch) _ _ _ hd hw h4
  rw [← hid] at d1 d2 d3
  refine ⟨hlt, Nat.testBit_lt_two_pow hlt, hid, hT, by omega, ?_, d1, d2, d3⟩
  rw [Nat.shiftRight_eq_div_pow]
  omega

/-- Witness for C15: the 4001st id of millisecond `epoch + 5`. -/
theorem sign_bit_unused_witness :
    NextID 0 (fun _ => 1602388800005000000) 0 ⟨31, 17, 1602388800005, 4000⟩ =
        .returned 23330721 ⟨31, 17, 1602388800005, 4001⟩ 1 ∧
      (23330721 : Nat) < 2 ^ 63 :=
  ⟨by decide,
    (sign_bit_unused 0 (fun _ => 1602388800005000000) 0
      ⟨31, 17, 1602388800005, 4000⟩ 23330721 ⟨31, 17, 1602388800005, 4001⟩ 1
      (by decide) (by decide) (by decide) (by decide) (by decide)).1⟩

/-- Claim C19: for fixed `workerID <= 31` and `datacenterID <= 31`, timestamps
`T1`, `T2` in `[epoch, epoch + 2 ^ 42)` and sequences `S1`, `S2 <= 4095`, the id
composed for `(T1, S1)` is below the id composed for `(T2, S2)` exactly when
`(T1, S1)` is lexicographically below `(T2, S2)`; outside that range the order
can fail: the id for `epoch - 1` is above the id for `epoch`, and the ids for
`epoch` and `epoch + 2 ^ 42` coincide. -/
theorem composeID_order_embedding (workerID datacenterID T1 S1 T2 S2 : Nat)
    (hw : workerID ≤ 31) (hd : datacenterID ≤ 31)
    (h1 : epoch ≤ T1 ∧ T1 < epoch + 2 ^ 42) (h2 : epoch ≤ T2 ∧ T2 < epoch + 2 ^ 42)
    (hs1 : S1 ≤ 4095) (hs2 : S2 ≤ 4095) :
    (composeID T1 datacenterID workerID S1 < composeID T2 datacenterID workerID S2 ↔
        (T1 < T2 ∨ (T1 = T2 ∧ S1 < S2))) ∧
      ¬ (composeID (epoch - 1) datacenterID workerID S1 <
          composeID epoch datacenterID workerID S1) ∧
      ¬ (composeID epoch datacenterID workerID S1 <
          composeID (epoch + 2 ^ 42) datacenterID workerID S1) := by
  have p1 := composeID_packed T1 _ _ _ hd hw hs1
  have p2 := composeID_packed T2 _ _ _ hd hw hs2
  rw [sub64_window T1 h1.1 h1.2] at p1
  rw [sub64_window T2 h2.1 h2.2] at p2
  have q1 := composeID_packed (epoch - 1) _ _ _ hd hw hs1
  have q2 := composeID_packed epoch _ _ _ hd hw hs1
  have q3 := composeID_packed (epoch + 2 ^ 42) _ _ _ hd hw hs1
  have e1 : sub64 (epoch - 1) epoch % 2 ^ 42 = 2 ^ 42 - 1 := by decide
  have e2 : sub64 epoch epoch % 2 ^ 42 = 0 := by decide
  have e3 : sub64 (epoch + 2 ^ 42) epoch % 2 ^ 42 = 0 := by decide
  rw [e1] at q1
  rw [e2] at q2
  rw [e3] at q3
  obtain ⟨a1, a2⟩ := h1
  obtain ⟨b1, b2⟩ := h2
  refine ⟨?_, ?_, ?_⟩
  · rw [p1, p2]
    constructor
    · intro hlt
      by_contra hcon
      have hcon' : T2 < T1 ∨ (T1 = T2 ∧ S2 ≤ S1) := by omega
      rcases hcon' with hgt | ⟨heq, hle⟩
      · have : T2 - epoch + 1 ≤ T1 - epoch := by omega
        omega
      · rw [heq] at hlt
        omega
    · rintro (hlt | ⟨heq, hlt⟩)
      · have : T1 - epoch + 1 ≤ T2 - epoch := by omega
        omega
      · rw [heq]
        omega
  · rw [q1, q2]
    omega
  · rw [q2, q3]
    omega

/-- Witness for C19: origins (17, 31), pairs `(epoch + 5, 4095)` and
`(epoch + 6, 0)`. -/
theorem composeID_order_embedding_witness :
    composeID 1602388800005 17 31 4095 < composeID 1602388800006 17 31 0 ↔
      ((1602388800005 : Nat) < 1602388800006 ∨
        ((1602388800005 : Nat) = 1602388800006 ∧ (4095 : Nat) < 0)) :=
  (composeID_order_embedding 31 17 1602388800005 4095 1602388800006 0
    (by decide) (by decide) (by decide) (by decide) (by decide) (by decide)).1

/-- Claim C20: the layout constants evaluate to the values their comments
state: `maxWorkerId = -1 ^ (-1 << 5) = 31`, `maxDatacenterId = 31`,
`sequenceMask = -1 ^ (-1 << 12) = 4095 = 0xFFF`, `workerIdShift = 12`,
`datacenterIdShift = 17` and `timestampLeftShift = 22`. -/
theorem layout_constants :
    maxWorkerId = Int.xor (-1) ((-1 : Int) <<< (5 : Int)) ∧ maxWorkerId = 31 ∧
      maxDatacenterId = Int.xor (-1) ((-1 : Int) <<< (5 : Int)) ∧ maxDatacenterId = 31 ∧
      sequenceMask = Int.xor (-1) ((-1 : Int) <<< (12 : Int)) ∧ sequenceMask = 4095 ∧
      sequenceMask = 0xFFF ∧
      workerIdShift = 12 ∧ datacenterIdShift = 17 ∧ timestampLeftShift = 22 := by
  refine ⟨by decide, by decide, by decide, by decide, by decide, by decide, by decide,
    by decide, by decide, by decide⟩

/-- More fuel does not change what `tilNextMillis` has returned. -/
theorem tilNextMillis_fuel_mono (c : Clock) (last fuel fuel' pos t p : Nat)
    (hle : fuel ≤ fuel') (h : tilNextMillis c last fuel pos = some (t, p)) :
    tilNextMillis c last fuel' pos = some (t, p) := by
  obtain ⟨q1, q2, q3, q4, q5⟩ := tilNextMillis_some c last fuel pos t p h
  have hfirst := tilNextMillis_first c last (p - 1 - pos) fuel' pos (by omega)
    (fun j hj => q5 (pos + j) (by omega) (by omega))
    (by rw [show pos + (p - 1 - pos) = p - 1 by omega, ← q3]; exact q4)
  rw [hfirst, show pos + (p - 1 - pos) = p - 1 by omega, ← q3,
    show p - 1 + 1 = p by omega]

/-- Claim C18: `tilNextMillis(lastTimestamp)` returns (given enough fuel) if and
only if some clock reading it takes is strictly above `lastTimestamp`; it
returns the first such reading, so its result is above `lastTimestamp` and every
reading skipped before it is at most `lastTimestamp`; under a clock that never
exceeds `lastTimestamp` it never returns.  `NextID` enters the wait only when
the sequence wraps to 0 in the same millisecond; otherwise it reads the clock
exactly once and its outcome does not depend on the fuel. -/
theorem tilNextMillis_returns_iff (c : Clock) (lastTimestamp pos : Nat) :
    ((∃ fuel t p, tilNextMillis c lastTimestamp fuel pos = some (t, p)) ↔
        ∃ k, lastTimestamp < genMillTimestamp c (pos + k)) ∧
      (∀ fuel t p, tilNextMillis c lastTimestamp fuel pos = some (t, p) →
        lastTimestamp < t ∧ pos < p ∧ t = genMillTimestamp c (p - 1) ∧
          (∀ k, pos ≤ k → k < p - 1 → genMillTimestamp c k ≤ lastTimestamp) ∧
          ∀ fuel', fuel ≤ fuel' → tilNextMillis c lastTimestamp fuel' pos = some (t, p)) ∧
      ((∀ k, genMillTimestamp c (pos + k) ≤ lastTimestamp) →
        ∀ fuel, tilNextMillis c lastTimestamp fuel pos = none) ∧
      (∀ fuel r, ¬ (genMillTimestamp c pos = r.lastTimestamp ∧
            wrap64 (r.sequence + 1) &&& sequenceMask.toNat = 0) →
        NextID fuel c pos r ≠ .spinning ∧
          (∀ fuel', NextID fuel' c pos r = NextID fuel c pos r) ∧
          (∀ id r' pos', NextID fuel c pos r = .returned id r' pos' → pos' = pos + 1)) ∧
      (∀ fuel r id r' pos', genMillTimestamp c pos = r.lastTimestamp →
        wrap64 (r.sequence + 1) &&& sequenceMask.toNat = 0 →
        NextID fuel c pos r = .returned id r' pos' →
        tilNextMillis c r.lastTimestamp fuel (pos + 1) = some (r'.lastTimestamp, pos') ∧
          pos + 2 ≤ pos') := by
  refine ⟨⟨?_, ?_⟩, ?_, ?_, ?_, ?_⟩
  · rintro ⟨fuel, t, p, h⟩
    obtain ⟨q1, -, q3, q4, -⟩ := tilNextMillis_some c lastTimestamp fuel pos t p h
    refine ⟨p - 1 - pos, ?_⟩
    rw [show pos + (p - 1 - pos) = p - 1 by omega, ← q3]
    exact q4
  · intro hex
    refine ⟨Nat.find hex + 1, genMillTimestamp c (pos + Nat.find hex), pos + Nat.find hex + 1, ?_⟩
    exact tilNextMillis_first c lastTimestamp (Nat.find hex) _ pos (by omega)
      (fun j hj => by have := Nat.find_min hex hj; omega) (Nat.find_spec hex)
  · intro fuel t p h
    obtain ⟨q1, -, q3, q4, q5⟩ := tilNextMillis_some c lastTimestamp fuel pos t p h
    exact ⟨q4, q1, q3, q5, fun fuel' hle =>
      tilNextMillis_fuel_mono c lastTimestamp fuel fuel' pos t p hle h⟩
  · intro hall fuel
    cases htil : tilNextMillis c lastTimestamp fuel pos with
    | none => rfl
    | some tp =>
      obtain ⟨t, p⟩ := tp
      exfalso
      obtain ⟨q1, -, q3, q4, -⟩ := tilNextMillis_some c lastTimestamp fuel pos t p htil
      have := hall (p - 1 - pos)
      rw [show pos + (p - 1 - pos) = p - 1 by omega, ← q3] at this
      omega
  · intro fuel r hnot
    rw [seq_step] at hnot
    have key : ∀ f, NextID f c pos r = .panicked r (pos + 1) ∨
        ∃ id r', NextID f c pos r = .returned id r' (pos + 1) ∧
          ∀ f', NextID f' c pos r = .returned id r' (pos + 1) := by
      intro f
      rcases Nat.lt_trichotomy (genMillTimestamp c pos) r.lastTimestamp with hlt | heq | hgt
      · exact Or.inl (NextID_rewound f c pos r hlt)
      · have hs : (r.sequence + 1) % 2 ^ 64 % 4096 ≠ 0 := fun h0 => hnot ⟨heq, h0⟩
        exact Or.inr ⟨_, _, NextID_same f c pos r heq hs,
          fun f' => NextID_same f' c pos r heq hs⟩
      · exact Or.inr ⟨_, _, NextID_fresh f c pos r hgt,
          fun f' => NextID_fresh f' c pos r hgt⟩
    refine ⟨?_, ?_, ?_⟩
    · rcases key fuel with h | ⟨id, r', h, -⟩
      · rw [h]
        exact fun hcon => by cases hcon
      · rw [h]
        exact fun hcon => by cases hcon
    · intro fuel'
      rcases key fuel with h | ⟨id, r', h, hall⟩
      · rw [h]
        have hlt := ((panicked_iff fuel c pos r r (pos + 1)).1 h).2.1
        exact NextID_rewound fuel' c pos r hlt
      · rw [h]
        exact hall fuel'
    · intro id r' pos' hret
      rcases key fuel with h | ⟨id₁, r₁, h, -⟩
      · rw [h] at hret
        cases hret
      · rw [h] at hret
        simp only [Outcome.returned.injEq] at hret
        exact hret.2.2.symm
  · intro fuel r id r' pos' hfirst hzero hret
    rw [seq_step] at hzero
    rw [NextID_wrapped fuel c pos r hfirst hzero] at hret
    cases htil : tilNextMillis c r.lastTimestamp fuel (pos + 1) with
    | none => rw [htil] at hret; cases hret
    | some tp =>
      obtain ⟨t, p⟩ := tp
      rw [htil] at hret
      simp only [Outcome.returned.injEq] at hret
      obtain ⟨-, h2, h3⟩ := hret
      subst h2 h3
      obtain ⟨q1, -⟩ := tilNextMillis_some c r.lastTimestamp fuel (pos + 1) t p htil
      exact ⟨rfl, by omega⟩

/-- Witness for C18: the clock reads 7 ms three times, then 9 ms; the wait for
a reading above 7 returns 9 after four readings, and a clock stuck at 7 ms
never lets it return. -/
theorem tilNextMillis_returns_iff_witness :
    tilNextMillis (fun i => if i < 3 then 7000000 else 9000000) 7 4 0 = some (9, 4) ∧
      (7 < 9 ∧ 0 < 4 ∧
        9 = genMillTimestamp (fun i => if i < 3 then 7000000 else 9000000) (4 - 1) ∧
        (∀ k, 0 ≤ k → k < 4 - 1 →
          genMillTimestamp (fun i => if i < 3 then 7000000 else 9000000) k ≤ 7) ∧
        ∀ fuel', 4 ≤ fuel' →
          tilNextMillis (fun i => if i < 3 then 7000000 else 9000000) 7 fuel' 0 = some (9, 4)) ∧
      (∀ fuel, tilNextMillis (fun _ => 7000000) 7 fuel 0 = none) :=
  ⟨by decide,
    (tilNextMillis_returns_iff (fun i => if i < 3 then 7000000 else 9000000) 7 0).2.1 4 9 4
      (by decide),
    (tilNextMillis_returns_iff (fun _ => 7000000) 7 0).2.2.1
      (fun _ => (by decide : genMillTimestamp (fun _ => 7000000) 0 ≤ 7))⟩

/-! ## Sequential runs and distinct ids

The embedding has no threads and no mutex, so nothing here speaks about
concurrent callers.  What can be said is about one sequential order of calls. -/

/-- In one sequential run whose clock readings stay in `[epoch, epoch + 2 ^ 42)`,
from a generator with in-range origin ids and sequence, the ids are pairwise
distinct. -/
theorem calls_ids_nodup_in_window (fuel : Nat) (c : Clock) (n pos : Nat) (r : SnowFlake)
    (l : List (Nat × SnowFlake))
    (hs : r.sequence ≤ 4095) (hw : r.workerID ≤ 31) (hd : r.datacenterID ≤ 31)
    (hwin : ∀ k, epoch ≤ genMillTimestamp c k ∧ genMillTimestamp c k < epoch + 2 ^ 42)
    (hrun : calls fuel c n pos r = some l) :
    (l.map (fun e => e.1)).Nodup := by
  obtain ⟨-, hmem, hpw⟩ := calls_run fuel c n pos r l hs hrun
  have hlt : l.Pairwise (fun a b => a.1 < b.1) := by
    refine List.Pairwise.imp_of_mem ?_ hpw
    intro a b ha hb hab
    obtain ⟨-, a2, -, -, a5, ka, -, a7⟩ := hmem a ha
    obtain ⟨-, b2, -, -, b5, kb, -, b7⟩ := hmem b hb
    rw [composeID_packed _ _ _ _ hd hw a2,
      sub64_window _ (by rw [a7]; exact (hwin ka).1) (by rw [a7]; exact (hwin ka).2)] at a5
    rw [composeID_packed _ _ _ _ hd hw b2,
      sub64_window _ (by rw [b7]; exact (hwin kb).1) (by rw [b7]; exact (hwin kb).2)] at b5
    have wa := (hwin ka).1
    have wb := (hwin kb).1
    rw [← a7] at wa
    rw [← b7] at wb
    unfold stampLt at hab
    rw [a5, b5]
    rcases hab with h1 | ⟨heq, h1⟩
    · have : a.2.lastTimestamp - epoch + 1 ≤ b.2.lastTimestamp - epoch := by omega
      omega
    · rw [heq]
      omega
  exact List.pairwise_map.2 (hlt.imp (fun h => Nat.ne_of_lt h))

/-- One sequential caller, two calls, clock readings `epoch` and then
`epoch + 2 ^ 42`: the same id 0 is returned twice. -/
theorem calls_ids_repeat_outside_window :
    calls 0 (fun i => if i = 0 then 1602388800000000000 else 6000435311104000000) 2 0
        ⟨0, 0, 0, 0⟩ =
      some [(0, ⟨0, 0, 1602388800000, 0⟩), (0, ⟨0, 0, 6000435311104, 0⟩)] := by
  decide

end Snowflake
